import Mathlib

/-!
# Pavlov: bit-packed pure strategies and the two-player match simulator

A shallow embedding of `pavlov.go`.  Go's fixed-width unsigned integers are
natural numbers together with an explicit reduction modulo `2 ^ w` wherever the
source operation can leave the width (left shifts, complement).  The payoff
table `[4]int8` is a function on `Fin 4`; indexing it with a machine integer is
the only operation of the simulator that can panic, so the simulator returns an
`Option`.
-/

namespace Pavlov

/-! ## Machine arithmetic -/

/-- Conversion to `uint8`. -/
def u8 (x : Nat) : Nat := x % 2 ^ 8

/-- Left shift on `uint8`. -/
def shl8 (x k : Nat) : Nat := (x <<< k) % 2 ^ 8

/-- Left shift on `uint16`. -/
def shl16 (x k : Nat) : Nat := (x <<< k) % 2 ^ 16

/-- Left shift on `uint64`. -/
def shl64 (x k : Nat) : Nat := (x <<< k) % 2 ^ 64

/-- Bitwise complement `^x` on `uint64`. -/
def not64 (x : Nat) : Nat := 2 ^ 64 - 1 - x % 2 ^ 64

/-! ## Data model -/

/-- The Go struct `PureStrategy`: `Move1`, `Move2` are `uint8`, `Move3` is
`uint16`, `MoveN` is `uint64`. -/
structure PureStrategy where
  Move1 : Nat
  Move2 : Nat
  Move3 : Nat
  MoveN : Nat
deriving DecidableEq, Repr

/-- The fields of a strategy fit their Go types. -/
def PureStrategy.WF (s : PureStrategy) : Prop :=
  s.Move1 < 2 ^ 8 ∧ s.Move2 < 2 ^ 8 ∧ s.Move3 < 2 ^ 16 ∧ s.MoveN < 2 ^ 64

instance (s : PureStrategy) : Decidable s.WF := by
  unfold PureStrategy.WF; infer_instance

def NewPureStrategyWithMemory3 (move1 move2 move3 moven : Nat) : PureStrategy :=
  { Move1 := move1, Move2 := move2, Move3 := move3, MoveN := moven }

def NewPureStrategyWithMemory2 (move1 move2 move3 : Nat) : PureStrategy :=
  let m3 := move3
  NewPureStrategyWithMemory3 move1 move2 move3
    (shl64 m3 48 ||| shl64 m3 32 ||| shl64 m3 16 ||| m3)

def NewPureStrategyWithMemory1 (move1 move2 : Nat) : PureStrategy :=
  let m2 := move2
  NewPureStrategyWithMemory2 move1 move2
    (shl16 m2 12 ||| shl16 m2 8 ||| shl16 m2 4 ||| m2)

def NewPureStrategyWithoutMemory (move : Nat) : PureStrategy :=
  NewPureStrategyWithMemory1 move
    (shl8 move 3 ||| shl8 move 2 ||| shl8 move 1 ||| move)

/-- The Go struct `PairGame`: the masks are `uint64`, the payoffs `[4]int8`,
`Rounds` is `uint8`. -/
structure PairGame where
  A : PureStrategy
  B : PureStrategy
  MistakesA : Nat
  MistakesB : Nat
  Payoffs : Fin 4 → Int
  Rounds : Nat

/-- The fields of a game fit their Go types. -/
def PairGame.WF (g : PairGame) : Prop :=
  g.A.WF ∧ g.B.WF ∧ g.MistakesA < 2 ^ 64 ∧ g.MistakesB < 2 ^ 64 ∧
    (∀ i, -128 ≤ g.Payoffs i ∧ g.Payoffs i ≤ 127) ∧ g.Rounds < 2 ^ 8

instance (g : PairGame) : Decidable g.WF := by
  unfold PairGame.WF; infer_instance

def DefaultPayoffs : Fin 4 → Int := ![0, 3, -1, 2]

def MovesTFT : Nat := 0b1010

def MovesPavlov : Nat := 0b1001

def StrategyAlwaysCooperate : PureStrategy := NewPureStrategyWithoutMemory 1

def StrategyAlwaysDefeat : PureStrategy := NewPureStrategyWithoutMemory 0

def StrategyTFT : PureStrategy := NewPureStrategyWithMemory1 1 MovesTFT

def StrategyTFTWF : PureStrategy :=
  NewPureStrategyWithMemory2 1 0b1111 0b1111101011111010

def StrategyPavlov : PureStrategy := NewPureStrategyWithMemory1 1 MovesPavlov

/-! ## The simulator -/

/-- The expression `int(g.Payoffs[i])` for a `uint8` index `i`; Go panics when
the index is outside the array. -/
def payoffAt (g : PairGame) (i : Nat) : Option Int :=
  if h : i < 4 then some (g.Payoffs ⟨i, h⟩) else none

/-- The variables of `SimulateMatch` that are live across iterations of its
`for` loop. -/
structure LoopVars where
  nonMistakesA : Nat
  nonMistakesB : Nat
  outcomeAhist : Nat
  outcomeBhist : Nat
  outcomeAlast : Nat
  outcomeBlast : Nat
  scoreA : Int
  scoreB : Int
  history : Nat

/-- One execution of the body of the `for` loop of `SimulateMatch`. -/
def loopBody (g : PairGame) (v : LoopVars) : Option LoopVars := do
  let nonMistakesA := v.nonMistakesA >>> 1
  let nonMistakesB := v.nonMistakesB >>> 1
  let outcomeAhist := (shl8 v.outcomeAhist 2 ||| v.outcomeAlast) &&& (1 <<< 6 - 1)
  let outcomeBhist := (shl8 v.outcomeBhist 2 ||| v.outcomeBlast) &&& (1 <<< 6 - 1)
  let moveA := u8 ((g.A.MoveN >>> outcomeAhist) &&& 1) &&& u8 (nonMistakesA &&& 1)
  let moveB := u8 ((g.B.MoveN >>> outcomeBhist) &&& 1) &&& u8 (nonMistakesB &&& 1)
  let outcomeAlast := shl8 moveA 1 ||| moveB
  let outcomeBlast := shl8 moveB 1 ||| moveA
  let payA ← payoffAt g outcomeAlast
  let payB ← payoffAt g outcomeBlast
  let scoreA := v.scoreA + payA
  let scoreB := v.scoreB + payB
  let history := shl64 v.history 2 ||| outcomeAlast
  pure
    { nonMistakesA := nonMistakesA, nonMistakesB := nonMistakesB,
      outcomeAhist := outcomeAhist, outcomeBhist := outcomeBhist,
      outcomeAlast := outcomeAlast, outcomeBlast := outcomeBlast,
      scoreA := scoreA, scoreB := scoreB, history := history }

/-- The loop `for r := uint8(4); r <= g.Rounds; r++` with the `uint8` counter
`r`.  The first argument bounds the number of iterations: `none` is returned
when it is used up (for `Rounds = 255` the counter wraps and the Go loop does
not terminate) or when the body panics. -/
def loopFrom (g : PairGame) : Nat → Nat → LoopVars → Option LoopVars
  | 0, _, _ => none
  | fuel + 1, r, v =>
    if r ≤ g.Rounds then
      (loopBody g v).bind (loopFrom g fuel (u8 (r + 1)))
    else
      some v

/-- The Go function `SimulateMatch`, returning `(scoreA, scoreB, history)`, or
`none` when an index into `Payoffs` is out of range or the loop does not end.
The scores are Go `int` values (64 bits), added here as unbounded integers: at
most 255 summands of `int8` size cannot leave that width. -/
def SimulateMatch (g : PairGame) : Option (Int × Int × Nat) := do
  let nonMistakesA := not64 g.MistakesA
  let nonMistakesB := not64 g.MistakesB
  let moveA1 := g.A.Move1 &&& u8 (nonMistakesA &&& 1)
  let moveB1 := g.B.Move1 &&& u8 (nonMistakesB &&& 1)
  let outcomeA1 := shl8 moveA1 1 ||| moveB1
  let outcomeB1 := shl8 moveB1 1 ||| moveA1
  let payA1 ← payoffAt g outcomeA1
  let payB1 ← payoffAt g outcomeB1
  let scoreA := 0 + payA1
  let scoreB := 0 + payB1
  let history := outcomeA1
  if g.Rounds = 1 then
    pure (scoreA, scoreB, history)
  else
    let nonMistakesA := nonMistakesA >>> 1
    let nonMistakesB := nonMistakesB >>> 1
    let moveA2 := (g.A.Move2 >>> outcomeA1) &&& u8 (nonMistakesA &&& 1)
    let moveB2 := (g.B.Move2 >>> outcomeB1) &&& u8 (nonMistakesB &&& 1)
    let outcomeA2 := shl8 moveA2 1 ||| moveB2
    let outcomeB2 := shl8 moveB2 1 ||| moveA2
    let payA2 ← payoffAt g outcomeA2
    let payB2 ← payoffAt g outcomeB2
    let scoreA := scoreA + payA2
    let scoreB := scoreB + payB2
    let history := shl64 history 2 ||| outcomeA2
    if g.Rounds = 2 then
      pure (scoreA, scoreB, history)
    else
      let nonMistakesA := nonMistakesA >>> 1
      let nonMistakesB := nonMistakesB >>> 1
      let outcomeAhist := shl8 outcomeA1 2 ||| outcomeA2
      let outcomeBhist := shl8 outcomeB1 2 ||| outcomeB2
      let moveA3 := u8 ((g.A.Move3 >>> outcomeAhist) &&& 1) &&& u8 (nonMistakesA &&& 1)
      let moveB3 := u8 ((g.B.Move3 >>> outcomeBhist) &&& 1) &&& u8 (nonMistakesB &&& 1)
      let outcomeAlast := shl8 moveA3 1 ||| moveB3
      let outcomeBlast := shl8 moveB3 1 ||| moveA3
      let payA3 ← payoffAt g outcomeAlast
      let payB3 ← payoffAt g outcomeBlast
      let scoreA := scoreA + payA3
      let scoreB := scoreB + payB3
      let history := shl64 history 2 ||| outcomeAlast
      let v ← loopFrom g 256 4
        { nonMistakesA := nonMistakesA, nonMistakesB := nonMistakesB,
          outcomeAhist := outcomeAhist, outcomeBhist := outcomeBhist,
          outcomeAlast := outcomeAlast, outcomeBlast := outcomeBlast,
          scoreA := scoreA, scoreB := scoreB, history := history }
      pure (v.scoreA, v.scoreB, v.history)

/-! ## The simulator with its range conditions asserted

The same translation of `SimulateMatch`, in which every computed move passes
through `moveChecked` (it is 0 or 1), every outcome through `outcomeChecked` (it
is in `0..3`) and every table lookup through `lookupChecked` (the shift amount
is below the width of the table: 4 for `Move2`, 16 for `Move3`, 64 for `MoveN`).
A failed check gives `none`. -/

/-- A move, checked to be 0 or 1. -/
def moveChecked (move : Nat) : Option Nat := if move < 2 then some move else none

/-- The outcome `own<<1 | opponent` on `uint8`, checked to be in `0..3`. -/
def outcomeChecked (own opponent : Nat) : Option Nat :=
  if shl8 own 1 ||| opponent < 4 then some (shl8 own 1 ||| opponent) else none

/-- The shift `table >> index`, checked to stay below the width of the table. -/
def lookupChecked (width table index : Nat) : Option Nat :=
  if index < width then some (table >>> index) else none

/-- The body of the `for` loop, with checks. -/
def loopBodyChecked (g : PairGame) (v : LoopVars) : Option LoopVars := do
  let nonMistakesA := v.nonMistakesA >>> 1
  let nonMistakesB := v.nonMistakesB >>> 1
  let outcomeAhist := (shl8 v.outcomeAhist 2 ||| v.outcomeAlast) &&& (1 <<< 6 - 1)
  let outcomeBhist := (shl8 v.outcomeBhist 2 ||| v.outcomeBlast) &&& (1 <<< 6 - 1)
  let entryA ← lookupChecked 64 g.A.MoveN outcomeAhist
  let entryB ← lookupChecked 64 g.B.MoveN outcomeBhist
  let moveA ← moveChecked (u8 (entryA &&& 1) &&& u8 (nonMistakesA &&& 1))
  let moveB ← moveChecked (u8 (entryB &&& 1) &&& u8 (nonMistakesB &&& 1))
  let outcomeAlast ← outcomeChecked moveA moveB
  let outcomeBlast ← outcomeChecked moveB moveA
  let payA ← payoffAt g outcomeAlast
  let payB ← payoffAt g outcomeBlast
  let scoreA := v.scoreA + payA
  let scoreB := v.scoreB + payB
  let history := shl64 v.history 2 ||| outcomeAlast
  pure
    { nonMistakesA := nonMistakesA, nonMistakesB := nonMistakesB,
      outcomeAhist := outcomeAhist, outcomeBhist := outcomeBhist,
      outcomeAlast := outcomeAlast, outcomeBlast := outcomeBlast,
      scoreA := scoreA, scoreB := scoreB, history := history }

/-- The `for` loop, with the checking body. -/
def loopFromChecked (g : PairGame) : Nat → Nat → LoopVars → Option LoopVars
  | 0, _, _ => none
  | fuel + 1, r, v =>
    if r ≤ g.Rounds then
      (loopBodyChecked g v).bind (loopFromChecked g fuel (u8 (r + 1)))
    else
      some v

/-- Rounds 3 and later of `SimulateMatch`, with checks. -/
def roundsFrom3Checked (g : PairGame) (nonMistakesA nonMistakesB outcomeA1 outcomeB1
    outcomeA2 outcomeB2 : Nat) (scoreA scoreB : Int) (history : Nat) :
    Option (Int × Int × Nat) := do
  let nonMistakesA := nonMistakesA >>> 1
  let nonMistakesB := nonMistakesB >>> 1
  let outcomeAhist := shl8 outcomeA1 2 ||| outcomeA2
  let outcomeBhist := shl8 outcomeB1 2 ||| outcomeB2
  let entryA ← lookupChecked 16 g.A.Move3 outcomeAhist
  let entryB ← lookupChecked 16 g.B.Move3 outcomeBhist
  let moveA3 ← moveChecked (u8 (entryA &&& 1) &&& u8 (nonMistakesA &&& 1))
  let moveB3 ← moveChecked (u8 (entryB &&& 1) &&& u8 (nonMistakesB &&& 1))
  let outcomeAlast ← outcomeChecked moveA3 moveB3
  let outcomeBlast ← outcomeChecked moveB3 moveA3
  let payA3 ← payoffAt g outcomeAlast
  let payB3 ← payoffAt g outcomeBlast
  let scoreA := scoreA + payA3
  let scoreB := scoreB + payB3
  let history := shl64 history 2 ||| outcomeAlast
  let v ← loopFromChecked g 256 4
    { nonMistakesA := nonMistakesA, nonMistakesB := nonMistakesB,
      outcomeAhist := outcomeAhist, outcomeBhist := outcomeBhist,
      outcomeAlast := outcomeAlast, outcomeBlast := outcomeBlast,
      scoreA := scoreA, scoreB := scoreB, history := history }
  pure (v.scoreA, v.scoreB, v.history)

/-- Rounds 2 and later of `SimulateMatch`, with checks. -/
def roundsFrom2Checked (g : PairGame) (nonMistakesA nonMistakesB outcomeA1 outcomeB1 : Nat)
    (scoreA scoreB : Int) (history : Nat) : Option (Int × Int × Nat) := do
  let nonMistakesA := nonMistakesA >>> 1
  let nonMistakesB := nonMistakesB >>> 1
  let entryA ← lookupChecked 4 g.A.Move2 outcomeA1
  let entryB ← lookupChecked 4 g.B.Move2 outcomeB1
  let moveA2 ← moveChecked (entryA &&& u8 (nonMistakesA &&& 1))
  let moveB2 ← moveChecked (entryB &&& u8 (nonMistakesB &&& 1))
  let outcomeA2 ← outcomeChecked moveA2 moveB2
  let outcomeB2 ← outcomeChecked moveB2 moveA2
  let payA2 ← payoffAt g outcomeA2
  let payB2 ← payoffAt g outcomeB2
  let scoreA := scoreA + payA2
  let scoreB := scoreB + payB2
  let history := shl64 history 2 ||| outcomeA2
  if g.Rounds = 2 then
    pure (scoreA, scoreB, history)
  else
    roundsFrom3Checked g nonMistakesA nonMistakesB outcomeA1 outcomeB1 outcomeA2 outcomeB2
      scoreA scoreB history

/-- The function `SimulateMatch`, with checks. -/
def SimulateMatchChecked (g : PairGame) : Option (Int × Int × Nat) := do
  let nonMistakesA := not64 g.MistakesA
  let nonMistakesB := not64 g.MistakesB
  let moveA1 ← moveChecked (g.A.Move1 &&& u8 (nonMistakesA &&& 1))
  let moveB1 ← moveChecked (g.B.Move1 &&& u8 (nonMistakesB &&& 1))
  let outcomeA1 ← outcomeChecked moveA1 moveB1
  let outcomeB1 ← outcomeChecked moveB1 moveA1
  let payA1 ← payoffAt g outcomeA1
  let payB1 ← payoffAt g outcomeB1
  let scoreA := 0 + payA1
  let scoreB := 0 + payB1
  let history := outcomeA1
  if g.Rounds = 1 then
    pure (scoreA, scoreB, history)
  else
    roundsFrom2Checked g nonMistakesA nonMistakesB outcomeA1 outcomeB1 scoreA scoreB history

/-! ## Rendering a history -/

/-- The Go array `outcomesStr`. -/
def outcomesStr : List String := ["D", "D/C", "C/D", "C"]

/-- The loop `for r := 1; r <= rounds; r++` of `HistoryToString`, which appends
one label to `results` in every iteration.  The first argument bounds the
number of iterations; `none` is returned when it is used up or when the index
into `outcomesStr` is out of range. -/
def historyLoop (history rounds : Nat) : Nat → Nat → List String → Option (List String)
  | 0, _, _ => none
  | fuel + 1, r, results =>
    if r ≤ rounds then
      let outcome := (history >>> (2 * (rounds - r))) &&& (1 <<< 2 - 1)
      (outcomesStr.get? outcome).bind fun label =>
        historyLoop history rounds fuel (r + 1) (results ++ [label])
    else
      some results

/-- The Go function `HistoryToString` for a non-negative `rounds`;
`strings.Join` is `String.intercalate`. -/
def HistoryToString (history rounds : Nat) : Option String :=
  (historyLoop history rounds (rounds + 1) 1 []).map (String.intercalate " -> ")

/-! ## Reading a packed history -/

/-- Bit `i` of `x`, as the number `0` or `1`. -/
def bitAt (x i : Nat) : Nat := (x >>> i) &&& 1

/-- The `r`-th 2-bit pair (`r = 1` is the first round) of a history that packs
`n` rounds: `(history >> 2*(n-r)) & 3`. -/
def pairAt (history n r : Nat) : Nat := (history >>> (2 * (n - r))) &&& 3

/-- Exchange the two bits of a 2-bit outcome: `1 ↔ 2`, `0` and `3` fixed. -/
def swapBits (p : Nat) : Nat := ((p &&& 1) <<< 1) ||| ((p >>> 1) &&& 1)

/-- Exchange the two bits of each of the `n` low 2-bit pairs of `h`. -/
def swapPairs : Nat → Nat → Nat
  | 0, _ => 0
  | n + 1, h => (swapPairs n (h >>> 2) <<< 2) ||| swapBits (h &&& 3)

/-- The game with the two players exchanged. -/
def PairGame.swapRoles (g : PairGame) : PairGame :=
  { g with A := g.B, B := g.A, MistakesA := g.MistakesB, MistakesB := g.MistakesA }

/-- Cooperation after an all-cooperate past: the first move is cooperate and
the table entries at the all-`C` indices `3`, `15`, `63` are cooperate. -/
def CooperationFixedPoint (s : PureStrategy) : Prop :=
  s.Move1 = 1 ∧ bitAt s.Move2 3 = 1 ∧ bitAt s.Move3 15 = 1 ∧ bitAt s.MoveN 63 = 1

instance (s : PureStrategy) : Decidable (CooperationFixedPoint s) := by
  unfold CooperationFixedPoint; infer_instance

/-! ## The uniform round-by-round reference

This part follows the wording of the specification, not the Go code: one rule
applied for `r = 1 .. Rounds`, with no unrolled rounds and no machine widths. -/

/-- Scores, packed history and each player's own outcomes so far, most recent
first. -/
structure RefState where
  scoreA : Int
  scoreB : Int
  history : Nat
  pastA : List Nat
  pastB : List Nat
deriving DecidableEq, Repr

/-- The intended move of a strategy after the given own outcomes (most recent
first): `Move1` in round 1, `Move2` at the round-1 outcome in round 2, `Move3`
at the two outcomes in round 3, `MoveN` at the three most recent outcomes
afterwards. -/
def intendedMove (s : PureStrategy) : List Nat → Nat
  | [] => bitAt s.Move1 0
  | [o1] => bitAt s.Move2 o1
  | [o2, o1] => bitAt s.Move3 ((o1 <<< 2) ||| o2)
  | o3 :: o2 :: o1 :: _ => bitAt s.MoveN ((o1 <<< 4) ||| (o2 <<< 2) ||| o3)

/-- The actual move in round `r`: the intended move AND NOT bit `r - 1` of the
mistake mask. -/
def actualMove (s : PureStrategy) (mistakes r : Nat) (past : List Nat) : Nat :=
  intendedMove s past &&& (1 - bitAt mistakes (r - 1))

/-- The payoff of an outcome. -/
def refPayoff (g : PairGame) (o : Nat) : Int :=
  g.Payoffs ⟨o % 4, Nat.mod_lt _ (by decide)⟩

/-- Round `r` of the reference. -/
def refRound (g : PairGame) (r : Nat) (s : RefState) : RefState :=
  let moveA := actualMove g.A g.MistakesA r s.pastA
  let moveB := actualMove g.B g.MistakesB r s.pastB
  let outcomeA := (moveA <<< 1) ||| moveB
  let outcomeB := (moveB <<< 1) ||| moveA
  { scoreA := s.scoreA + refPayoff g outcomeA
    scoreB := s.scoreB + refPayoff g outcomeB
    history := (s.history <<< 2) ||| outcomeA
    pastA := outcomeA :: s.pastA
    pastB := outcomeB :: s.pastB }

/-- The reference after `k` rounds. -/
def refRun (g : PairGame) : Nat → RefState
  | 0 => { scoreA := 0, scoreB := 0, history := 0, pastA := [], pastB := [] }
  | k + 1 => refRound g (k + 1) (refRun g k)

/-- The result of the reference: scores and history after `Rounds` rounds. -/
def refSimulate (g : PairGame) : Int × Int × Nat :=
  let s := refRun g g.Rounds
  (s.scoreA, s.scoreB, s.history)

/-- The index formed by the three most recent outcomes of a past, a missing
outcome counting as `0`. -/
def window (past : List Nat) : Nat :=
  (past.getD 2 0 <<< 4) ||| (past.getD 1 0 <<< 2) ||| past.getD 0 0

/-- The packed form of a list of outcomes, most recent first. -/
def packOutcomes : List Nat → Nat
  | [] => 0
  | o :: past => (packOutcomes past <<< 2) ||| o

/-- The loop variables of `SimulateMatch` after round `k ≥ 3`, expressed
through the state `s` of the reference after that round. -/
def varsAfter (g : PairGame) (k : Nat) (s : RefState) : LoopVars :=
  { nonMistakesA := not64 g.MistakesA >>> (k - 1)
    nonMistakesB := not64 g.MistakesB >>> (k - 1)
    outcomeAhist := window s.pastA.tail
    outcomeBhist := window s.pastB.tail
    outcomeAlast := s.pastA.headD 0
    outcomeBlast := s.pastB.headD 0
    scoreA := s.scoreA
    scoreB := s.scoreB
    history := s.history }

/-- The outcome of round `r ≥ 1` seen from player `A`, in the reference. -/
def outcomeA (g : PairGame) (r : Nat) : Nat := (refRun g r).pastA.headD 0

/-- The game of the test case "TFT vs always-cooperate (mistake)". -/
def gameTFTvsCooperateMistake : PairGame :=
  { A := StrategyTFT, B := StrategyAlwaysCooperate, MistakesA := 0, MistakesB := 1 <<< 5,
    Payoffs := DefaultPayoffs, Rounds := 10 }

/-- The game of the test case "Pavlov (mistake) vs Pavlov". -/
def gamePavlovMistakeVsPavlov : PairGame :=
  { A := StrategyPavlov, B := StrategyPavlov, MistakesA := 1 <<< 5, MistakesB := 0,
    Payoffs := DefaultPayoffs, Rounds := 10 }

/-- The game of the test case "TFTWF vs always-defeat". -/
def gameTFTWFvsDefeat : PairGame :=
  { A := StrategyTFTWF, B := StrategyAlwaysDefeat, MistakesA := 0, MistakesB := 0,
    Payoffs := DefaultPayoffs, Rounds := 10 }

/-- The game of the test case "always-cooperate (mistake) vs always-cooperate". -/
def gameCooperateMistakeVsCooperate : PairGame :=
  { A := StrategyAlwaysCooperate, B := StrategyAlwaysCooperate, MistakesA := 1 <<< 5,
    MistakesB := 0, Payoffs := DefaultPayoffs, Rounds := 10 }

/-- The label of a 2-bit outcome, as the specification lists it. -/
def outcomeLabel : Nat → String
  | 0 => "D"
  | 1 => "D/C"
  | 2 => "C/D"
  | 3 => "C"
  | _ => ""

/-- A 32-round game whose `Move1` and `Move2` bytes have bits set above their
documented widths, with extreme payoffs and mistake bits on both sides. -/
def gameWideFields : PairGame :=
  { A := NewPureStrategyWithMemory3 0xFF 0xF5 0xFFFF 0xFFFFFFFFFFFFFFFF,
    B := NewPureStrategyWithMemory3 0xAB 0x3C 0x1234 0x0123456789ABCDEF,
    MistakesA := 0x00000000F0F0F0F0, MistakesB := 0xFFFFFFFF00000001,
    Payoffs := ![-128, 127, -1, 2], Rounds := 32 }

/-- What the reference maintains: both pasts have one outcome per round, every
outcome is a 2-bit value, the outcomes of `B` mirror those of `A`, and the
history packs the outcomes of `A`. -/
structure RefInv (k : Nat) (s : RefState) : Prop where
  lenA : s.pastA.length = k
  lenB : s.pastB.length = k
  boundA : ∀ o ∈ s.pastA, o < 4
  mirror : s.pastB = s.pastA.map swapBits
  packed : s.history = packOutcomes s.pastA
  small : s.history < 4 ^ k

/-! ## Machine arithmetic on small values -/

theorem bitAt_lt (x i : Nat) : bitAt x i < 2 := by
  unfold bitAt
  exact Nat.lt_succ_of_le Nat.and_le_right

theorem bitAt_eq_mod (x i : Nat) : bitAt x i = x / 2 ^ i % 2 := by
  unfold bitAt
  rw [Nat.and_one_is_mod, Nat.shiftRight_eq_div_pow]

theorem bitAt_eq_toNat (x i : Nat) : bitAt x i = (x.testBit i).toNat := by
  rw [bitAt_eq_mod, Nat.toNat_testBit]

theorem u8_and_one (x : Nat) : u8 (x &&& 1) = x &&& 1 := by
  unfold u8
  exact Nat.mod_eq_of_lt (lt_of_le_of_lt Nat.and_le_right (by decide))

theorem and_bit (x c : Nat) (hc : c < 2) : x &&& c = (x &&& 1) &&& c := by
  interval_cases c
  · simp
  · rw [Nat.and_assoc, Nat.and_self]

theorem not64_bit (m j : Nat) (hj : j < 64) :
    (not64 m >>> j) &&& 1 = 1 - bitAt m j := by
  have hlt : m % 2 ^ 64 < 2 ^ 64 := Nat.mod_lt _ (by decide)
  have key := Nat.testBit_two_pow_sub_succ hlt j
  have e : not64 m = 2 ^ 64 - (m % 2 ^ 64 + 1) := by unfold not64; omega
  have h1 : (not64 m >>> j) &&& 1 = ((not64 m).testBit j).toNat := by
    rw [← bitAt_eq_toNat]; rfl
  rw [h1, e, key, bitAt_eq_toNat, Nat.testBit_mod_two_pow]
  simp [hj]
  cases m.testBit j <;> rfl

theorem outcome_code (a b : Nat) (ha : a < 2) (hb : b < 2) :
    shl8 a 1 ||| b = (a <<< 1) ||| b ∧ (a <<< 1) ||| b < 4 := by
  interval_cases a <;> interval_cases b <;> decide

theorem window_slide :
    ∀ a < 4, ∀ b < 4, ∀ c < 4, ∀ d < 4,
      (shl8 ((a <<< 4) ||| (b <<< 2) ||| c) 2 ||| d) &&& (1 <<< 6 - 1)
        = (b <<< 4) ||| (c <<< 2) ||| d := by
  decide


theorem shl2_or (h o : Nat) (ho : o < 4) : (h <<< 2) ||| o = 4 * h + o := by
  rw [Nat.shiftLeft_eq, Nat.mul_comm]
  exact (Nat.mul_add_lt_is_or (show o < 2 ^ 2 from ho) h).symm

theorem actualMove_lt (s : PureStrategy) (m r : Nat) (past : List Nat) :
    actualMove s m r past < 2 := by
  unfold actualMove
  have h1 : intendedMove s past &&& (1 - bitAt m (r - 1)) ≤ 1 - bitAt m (r - 1) :=
    Nat.and_le_right
  omega

theorem swapBits_outcome (a b : Nat) (ha : a < 2) (hb : b < 2) :
    swapBits ((a <<< 1) ||| b) = (b <<< 1) ||| a := by
  interval_cases a <;> interval_cases b <;> decide

theorem refRound_inv (g : PairGame) (k : Nat) (s : RefState) (h : RefInv k s) :
    RefInv (k + 1) (refRound g (k + 1) s) := by
  have ha := actualMove_lt g.A g.MistakesA (k + 1) s.pastA
  have hb := actualMove_lt g.B g.MistakesB (k + 1) s.pastB
  have ho := (outcome_code _ _ ha hb).2
  refine ⟨?_, ?_, ?_, ?_, ?_, ?_⟩
  · simp [refRound, h.lenA]
  · simp [refRound, h.lenB]
  · intro o hmem
    simp only [refRound, List.mem_cons] at hmem
    rcases hmem with rfl | hmem
    · exact ho
    · exact h.boundA o hmem
  · simp only [refRound, List.map_cons, h.mirror]
    rw [← h.mirror, swapBits_outcome _ _ ha hb]
  · simp only [refRound, packOutcomes, h.packed]
  · simp only [refRound]
    rw [shl2_or _ _ ho]
    have := h.small
    rw [pow_succ]
    omega

theorem refRun_inv (g : PairGame) (k : Nat) : RefInv k (refRun g k) := by
  induction k with
  | zero => exact ⟨rfl, rfl, by simp [refRun], rfl, rfl, by simp [refRun]⟩
  | succ k ih => exact refRound_inv g k _ ih

theorem swapBits_lt (p : Nat) (hp : p < 4) : swapBits p < 4 := by
  interval_cases p <;> decide

theorem payoffAt_eq (g : PairGame) (o : Nat) (ho : o < 4) :
    payoffAt g o = some (refPayoff g o) := by
  unfold payoffAt refPayoff
  rw [dif_pos ho]
  simp [Nat.mod_eq_of_lt ho]

theorem shl64_history (h o k : Nat) (hh : h < 4 ^ k) (hk : k < 32) :
    shl64 h 2 ||| o = (h <<< 2) ||| o := by
  unfold shl64
  rw [Nat.mod_eq_of_lt]
  rw [Nat.shiftLeft_eq]
  have h1 : (4 : Nat) ^ k ≤ 4 ^ 31 := Nat.pow_le_pow_right (by decide) (by omega)
  have h2 : (4 : Nat) ^ 31 * 2 ^ 2 = 2 ^ 64 := by norm_num
  omega

theorem list_three (l : List Nat) (h : 3 ≤ l.length) :
    ∃ a b c t, l = a :: b :: c :: t := by
  match l, h with
  | a :: b :: c :: t, _ => exact ⟨a, b, c, t, rfl⟩

theorem loopBody_varsAfter (g : PairGame) (k : Nat) (s : RefState) (h : RefInv k s)
    (h3 : 3 ≤ k) (h32 : k < 32) :
    loopBody g (varsAfter g k s) = some (varsAfter g (k + 1) (refRound g (k + 1) s)) := by
  obtain ⟨o3, o2, o1, ra, hA⟩ := list_three s.pastA (by rw [h.lenA]; exact h3)
  have hB : s.pastB = swapBits o3 :: swapBits o2 :: swapBits o1 :: ra.map swapBits := by
    rw [h.mirror, hA]; rfl
  have b3 : o3 < 4 := h.boundA o3 (by simp [hA])
  have b2 : o2 < 4 := h.boundA o2 (by simp [hA])
  have b1 : o1 < 4 := h.boundA o1 (by simp [hA])
  have ha := actualMove_lt g.A g.MistakesA (k + 1) s.pastA
  have hb := actualMove_lt g.B g.MistakesB (k + 1) s.pastB
  have nmA : (not64 g.MistakesA >>> (k - 1) >>> 1) &&& 1 = 1 - bitAt g.MistakesA k := by
    rw [← Nat.shiftRight_add, show k - 1 + 1 = k by omega]
    exact not64_bit _ _ (by omega)
  have nmB : (not64 g.MistakesB >>> (k - 1) >>> 1) &&& 1 = 1 - bitAt g.MistakesB k := by
    rw [← Nat.shiftRight_add, show k - 1 + 1 = k by omega]
    exact not64_bit _ _ (by omega)
  have a0 : ra.getD 0 0 < 4 := by
    cases ra with
    | nil => simp
    | cons x t => simpa using h.boundA x (by simp [hA])
  have hWA : (shl8 (window s.pastA.tail) 2 ||| s.pastA.headD 0) &&& (1 <<< 6 - 1)
      = (o1 <<< 4) ||| (o2 <<< 2) ||| o3 := by
    rw [hA]
    simpa [window] using window_slide _ a0 o1 b1 o2 b2 o3 b3
  have hWB : (shl8 (window s.pastB.tail) 2 ||| s.pastB.headD 0) &&& (1 <<< 6 - 1)
      = (swapBits o1 <<< 4) ||| (swapBits o2 <<< 2) ||| swapBits o3 := by
    rw [hB]
    have b0 : (ra.map swapBits).getD 0 0 < 4 := by
      cases ra with
      | nil => simp
      | cons x t => simpa using swapBits_lt x (h.boundA x (by simp [hA]))
    simpa [window] using window_slide _ b0 _ (swapBits_lt _ b1) _ (swapBits_lt _ b2) _
      (swapBits_lt _ b3)
  have mA : u8 ((g.A.MoveN >>> ((shl8 (window s.pastA.tail) 2 ||| s.pastA.headD 0)
      &&& (1 <<< 6 - 1))) &&& 1) &&& u8 ((not64 g.MistakesA >>> (k - 1) >>> 1) &&& 1)
      = actualMove g.A g.MistakesA (k + 1) s.pastA := by
    rw [u8_and_one, u8_and_one, nmA, hWA, hA]
    rfl
  have mB : u8 ((g.B.MoveN >>> ((shl8 (window s.pastB.tail) 2 ||| s.pastB.headD 0)
      &&& (1 <<< 6 - 1))) &&& 1) &&& u8 ((not64 g.MistakesB >>> (k - 1) >>> 1) &&& 1)
      = actualMove g.B g.MistakesB (k + 1) s.pastB := by
    rw [u8_and_one, u8_and_one, nmB, hWB, hB]
    rfl
  have oA := outcome_code _ _ ha hb
  have oB := outcome_code _ _ hb ha
  simp only [loopBody, varsAfter]
  rw [mA, mB, oA.1, oB.1, payoffAt_eq g _ oA.2, payoffAt_eq g _ oB.2,
    shl64_history _ _ k h.small h32]
  rw [hWA, hWB, ← Nat.shiftRight_add, ← Nat.shiftRight_add, show k - 1 + 1 = k + 1 - 1 by omega]
  simp only [refRound, List.tail_cons, List.headD_cons, Option.some_bind, Option.pure_def]
  rw [hA, hB]
  simp [window]

theorem loopFrom_varsAfter (g : PairGame) (hR : g.Rounds ≤ 32) :
    ∀ fuel r, 4 ≤ r → r ≤ g.Rounds + 1 → g.Rounds + 1 - r < fuel →
      loopFrom g fuel r (varsAfter g (r - 1) (refRun g (r - 1)))
        = some (varsAfter g g.Rounds (refRun g g.Rounds)) := by
  intro fuel
  induction fuel with
  | zero => intro r _ _ hf; omega
  | succ fuel ih =>
    intro r h4 hr hf
    unfold loopFrom
    by_cases hle : r ≤ g.Rounds
    · rw [if_pos hle]
      have hstep := loopBody_varsAfter g (r - 1) (refRun g (r - 1)) (refRun_inv g (r - 1))
        (by omega) (by omega)
      have e1 : r - 1 + 1 = r := by omega
      have e2 : refRound g (r - 1 + 1) (refRun g (r - 1)) = refRun g r := by
        rw [e1]
        obtain ⟨j, rfl⟩ : ∃ j, r = j + 1 := ⟨r - 1, by omega⟩
        rfl
      rw [e2, e1] at hstep
      rw [hstep, Option.some_bind]
      have e3 : u8 (r + 1) = r + 1 := by
        unfold u8
        exact Nat.mod_eq_of_lt (by omega)
      rw [e3]
      have := ih (r + 1) (by omega) (by omega) (by omega)
      simpa using this
    · rw [if_neg hle]
      have e : r - 1 = g.Rounds := by omega
      rw [e]

theorem move1_code (s : PureStrategy) (m : Nat) :
    s.Move1 &&& u8 (not64 m &&& 1) = actualMove s m 1 [] := by
  have h := not64_bit m 0 (by decide)
  rw [Nat.shiftRight_zero] at h
  rw [u8_and_one, h, and_bit _ _ (by omega : 1 - bitAt m 0 < 2)]
  rfl

theorem move2_code (s : PureStrategy) (m o : Nat) :
    (s.Move2 >>> o) &&& u8 ((not64 m >>> 1) &&& 1) = actualMove s m 2 [o] := by
  rw [u8_and_one, not64_bit m 1 (by decide), and_bit _ _ (by omega : 1 - bitAt m 1 < 2)]
  rfl

theorem move3_code (s : PureStrategy) (m o1 o2 : Nat) (h1 : o1 < 4) :
    u8 ((s.Move3 >>> (shl8 o1 2 ||| o2)) &&& 1) &&& u8 ((not64 m >>> 1 >>> 1) &&& 1)
      = actualMove s m 3 [o2, o1] := by
  have e : shl8 o1 2 = o1 <<< 2 := by interval_cases o1 <;> rfl
  rw [u8_and_one, u8_and_one, ← Nat.shiftRight_add, not64_bit m 2 (by decide), e]
  rfl

theorem SimulateMatch_eq_ref (g : PairGame) (h1 : 1 ≤ g.Rounds) (h32 : g.Rounds ≤ 32) :
    SimulateMatch g = some (refSimulate g) := by
  have a1 := actualMove_lt g.A g.MistakesA 1 []
  have b1 := actualMove_lt g.B g.MistakesB 1 []
  have oA1 := outcome_code _ _ a1 b1
  have oB1 := outcome_code _ _ b1 a1
  have a2 := actualMove_lt g.A g.MistakesA 2 [(actualMove g.A g.MistakesA 1 [] <<< 1) ||| actualMove g.B g.MistakesB 1 []]
  have b2 := actualMove_lt g.B g.MistakesB 2 [(actualMove g.B g.MistakesB 1 [] <<< 1) ||| actualMove g.A g.MistakesA 1 []]
  have oA2 := outcome_code _ _ a2 b2
  have oB2 := outcome_code _ _ b2 a2
  have a3 := actualMove_lt g.A g.MistakesA 3
    [(actualMove g.A g.MistakesA 2 [(actualMove g.A g.MistakesA 1 [] <<< 1) ||| actualMove g.B g.MistakesB 1 []] <<< 1) ||| actualMove g.B g.MistakesB 2 [(actualMove g.B g.MistakesB 1 [] <<< 1) ||| actualMove g.A g.MistakesA 1 []],
     (actualMove g.A g.MistakesA 1 [] <<< 1) ||| actualMove g.B g.MistakesB 1 []]
  have b3 := actualMove_lt g.B g.MistakesB 3
    [(actualMove g.B g.MistakesB 2 [(actualMove g.B g.MistakesB 1 [] <<< 1) ||| actualMove g.A g.MistakesA 1 []] <<< 1) ||| actualMove g.A g.MistakesA 2 [(actualMove g.A g.MistakesA 1 [] <<< 1) ||| actualMove g.B g.MistakesB 1 []],
     (actualMove g.B g.MistakesB 1 [] <<< 1) ||| actualMove g.A g.MistakesA 1 []]
  have oA3 := outcome_code _ _ a3 b3
  have oB3 := outcome_code _ _ b3 a3
  have hh1 : (actualMove g.A g.MistakesA 1 [] <<< 1) ||| actualMove g.B g.MistakesB 1 [] < 4 ^ 1 :=
    oA1.2
  simp only [SimulateMatch]
  rw [move1_code, move1_code, oA1.1, oB1.1, payoffAt_eq g _ oA1.2, payoffAt_eq g _ oB1.2,
    move2_code, move2_code, oA2.1, oB2.1, payoffAt_eq g _ oA2.2, payoffAt_eq g _ oB2.2,
    move3_code _ _ _ _ oA1.2, move3_code _ _ _ _ oB1.2, oA3.1, oB3.1,
    payoffAt_eq g _ oA3.2, payoffAt_eq g _ oB3.2,
    shl64_history _ _ 1 hh1 (by decide)]
  have hh2 : ((actualMove g.A g.MistakesA 1 [] <<< 1) ||| actualMove g.B g.MistakesB 1 []) <<< 2
      ||| ((actualMove g.A g.MistakesA 2 [(actualMove g.A g.MistakesA 1 [] <<< 1) ||| actualMove g.B g.MistakesB 1 []] <<< 1) ||| actualMove g.B g.MistakesB 2 [(actualMove g.B g.MistakesB 1 [] <<< 1) ||| actualMove g.A g.MistakesA 1 []]) < 4 ^ 2 := by
    rw [shl2_or _ _ oA2.2]
    have := oA1.2
    have := oA2.2
    omega
  rw [shl64_history _ _ 2 hh2 (by decide)]
  have s1 : shl8 ((actualMove g.A g.MistakesA 1 [] <<< 1) ||| actualMove g.B g.MistakesB 1 []) 2
      = ((actualMove g.A g.MistakesA 1 [] <<< 1) ||| actualMove g.B g.MistakesB 1 []) <<< 2 := by
    have := oA1.2
    generalize (actualMove g.A g.MistakesA 1 [] <<< 1) ||| actualMove g.B g.MistakesB 1 [] = o at this ⊢
    interval_cases o <;> rfl
  have s2 : shl8 ((actualMove g.B g.MistakesB 1 [] <<< 1) ||| actualMove g.A g.MistakesA 1 []) 2
      = ((actualMove g.B g.MistakesB 1 [] <<< 1) ||| actualMove g.A g.MistakesA 1 []) <<< 2 := by
    have := oB1.2
    generalize (actualMove g.B g.MistakesB 1 [] <<< 1) ||| actualMove g.A g.MistakesA 1 [] = o at this ⊢
    interval_cases o <;> rfl
  rw [s1, s2]
  by_cases c1 : g.Rounds = 1
  · simp [c1, refSimulate, refRun, refRound]
  by_cases c2 : g.Rounds = 2
  · simp [c2, refSimulate, refRun, refRound]
  have hloop := loopFrom_varsAfter g h32 256 4 (by omega) (by omega) (by omega)
  have key : ∀ V, V = varsAfter g 3 (refRun g 3) →
      ((loopFrom g 256 4 V).bind fun v => some (v.scoreA, v.scoreB, v.history))
        = some (refSimulate g) := by
    intro V hV
    rw [hV, hloop]
    rfl
  simp only [Option.bind_eq_bind, Option.some_bind, Option.pure_def, if_neg c1, if_neg c2]
  apply key
  simp [varsAfter, refRun, refRound, window, ← Nat.shiftRight_add]


/-! ## Outcomes and the packed history -/

theorem pair_low (p o : Nat) (ho : o < 4) : ((p <<< 2) ||| o) &&& 3 = o := by
  rw [shl2_or _ _ ho, show (3 : Nat) = 2 ^ 2 - 1 by rfl, Nat.and_pow_two_sub_one_eq_mod]
  omega

theorem pair_high (p o : Nat) (ho : o < 4) : ((p <<< 2) ||| o) >>> 2 = p := by
  rw [shl2_or _ _ ho, Nat.shiftRight_eq_div_pow]
  omega

theorem pack_pair (l : List Nat) (hl : ∀ o ∈ l, o < 4) (i : Nat) :
    (packOutcomes l >>> (2 * i)) &&& 3 = l.getD i 0 := by
  induction l generalizing i with
  | nil => simp [packOutcomes]
  | cons o t ih =>
    have ho : o < 4 := hl o (by simp)
    have ht : ∀ x ∈ t, x < 4 := fun x hx => hl x (by simp [hx])
    cases i with
    | zero => simpa [packOutcomes] using pair_low _ _ ho
    | succ j =>
      have e : 2 * (j + 1) = 2 + 2 * j := by omega
      rw [e, Nat.shiftRight_add]
      simp only [packOutcomes, List.getD_cons_succ]
      rw [pair_high _ _ ho]
      exact ih ht j

theorem pastA_succ (g : PairGame) (k : Nat) :
    (refRun g (k + 1)).pastA = outcomeA g (k + 1) :: (refRun g k).pastA := rfl

theorem pastA_getD (g : PairGame) (k i : Nat) (hi : i < k) :
    (refRun g k).pastA.getD i 0 = outcomeA g (k - i) := by
  induction k generalizing i with
  | zero => omega
  | succ k ih =>
    rw [pastA_succ]
    cases i with
    | zero => simp
    | succ j =>
      rw [List.getD_cons_succ, ih j (by omega)]
      congr 1
      omega

theorem pairAt_history (g : PairGame) (n r : Nat) (h1 : 1 ≤ r) (hn : r ≤ n) :
    pairAt (refRun g n).history n r = outcomeA g r := by
  have inv := refRun_inv g n
  unfold pairAt
  rw [inv.packed, pack_pair _ inv.boundA, pastA_getD g n (n - r) (by omega)]
  congr 1
  omega

theorem outcomeA_succ (g : PairGame) (k : Nat) :
    outcomeA g (k + 1)
      = (actualMove g.A g.MistakesA (k + 1) (refRun g k).pastA <<< 1)
          ||| actualMove g.B g.MistakesB (k + 1) (refRun g k).pastB := rfl

theorem outcome_bits (a b : Nat) (ha : a < 2) (hb : b < 2) :
    bitAt ((a <<< 1) ||| b) 1 = a ∧ bitAt ((a <<< 1) ||| b) 0 = b := by
  interval_cases a <;> interval_cases b <;> decide

theorem outcomeA_lt (g : PairGame) (r : Nat) : outcomeA g r < 4 := by
  cases r with
  | zero => simp [outcomeA, refRun]
  | succ k =>
    rw [outcomeA_succ]
    exact (outcome_code _ _ (actualMove_lt _ _ _ _) (actualMove_lt _ _ _ _)).2

theorem pastB_eq (g : PairGame) (k : Nat) :
    (refRun g k).pastB = (refRun g k).pastA.map swapBits := (refRun_inv g k).mirror

/-- The move of `A` in round `k + 1` is the high bit of that round's outcome. -/
theorem moveA_bit (g : PairGame) (k : Nat) :
    bitAt (outcomeA g (k + 1)) 1 = actualMove g.A g.MistakesA (k + 1) (refRun g k).pastA := by
  rw [outcomeA_succ]
  exact (outcome_bits _ _ (actualMove_lt _ _ _ _) (actualMove_lt _ _ _ _)).1

/-- The move of `B` in round `k + 1` is the low bit of that round's outcome. -/
theorem moveB_bit (g : PairGame) (k : Nat) :
    bitAt (outcomeA g (k + 1)) 0 = actualMove g.B g.MistakesB (k + 1) (refRun g k).pastB := by
  rw [outcomeA_succ]
  exact (outcome_bits _ _ (actualMove_lt _ _ _ _) (actualMove_lt _ _ _ _)).2

/-! ## Scores -/

theorem scoreA_sum (g : PairGame) (n : Nat) :
    (refRun g n).scoreA = ∑ r ∈ Finset.Icc 1 n, refPayoff g (outcomeA g r) := by
  induction n with
  | zero => simp [refRun]
  | succ k ih =>
    rw [Finset.sum_Icc_succ_top (by omega), ← ih]
    rfl

theorem scoreB_sum (g : PairGame) (n : Nat) :
    (refRun g n).scoreB = ∑ r ∈ Finset.Icc 1 n, refPayoff g (swapBits (outcomeA g r)) := by
  induction n with
  | zero => simp [refRun]
  | succ k ih =>
    rw [Finset.sum_Icc_succ_top (by omega), ← ih, outcomeA_succ,
      swapBits_outcome _ _ (actualMove_lt _ _ _ _) (actualMove_lt _ _ _ _)]
    rfl

theorem refPayoff_bounds (g : PairGame)
    (hP : ∀ i, -128 ≤ g.Payoffs i ∧ g.Payoffs i ≤ 127) (o : Nat) :
    -128 ≤ refPayoff g o ∧ refPayoff g o ≤ 127 :=
  hP _

theorem refRun_score_bounds (g : PairGame)
    (hP : ∀ i, -128 ≤ g.Payoffs i ∧ g.Payoffs i ≤ 127) (k : Nat) :
    (-128 * (k : Int) ≤ (refRun g k).scoreA ∧ (refRun g k).scoreA ≤ 127 * (k : Int)) ∧
      (-128 * (k : Int) ≤ (refRun g k).scoreB ∧ (refRun g k).scoreB ≤ 127 * (k : Int)) := by
  induction k with
  | zero => simp [refRun]
  | succ k ih =>
    obtain ⟨⟨a1, a2⟩, b1, b2⟩ := ih
    obtain ⟨x, hx⟩ : ∃ x, (refRun g (k + 1)).scoreA = (refRun g k).scoreA + refPayoff g x :=
      ⟨_, rfl⟩
    obtain ⟨y, hy⟩ : ∃ y, (refRun g (k + 1)).scoreB = (refRun g k).scoreB + refPayoff g y :=
      ⟨_, rfl⟩
    have pa := refPayoff_bounds g hP x
    have pb := refPayoff_bounds g hP y
    rw [hx, hy]
    push_cast
    refine ⟨⟨?_, ?_⟩, ?_, ?_⟩ <;> omega

/-- The machine types are wide enough: for a well-typed game with
`1 ≤ Rounds ≤ 32` the scores stay far inside the 64-bit `int` and the history
inside `uint64`, so the simulator's unbounded integer additions are exact. -/
theorem SimulateMatch_fits (g : PairGame) (hg : g.WF) (h1 : 1 ≤ g.Rounds)
    (h32 : g.Rounds ≤ 32) :
    ∃ scoreA scoreB history, SimulateMatch g = some (scoreA, scoreB, history) ∧
      (-4096 ≤ scoreA ∧ scoreA ≤ 4096) ∧ (-4096 ≤ scoreB ∧ scoreB ≤ 4096) ∧
      history < 2 ^ 64 := by
  refine ⟨_, _, _, SimulateMatch_eq_ref g h1 h32, ?_⟩
  obtain ⟨⟨a1, a2⟩, b1, b2⟩ := refRun_score_bounds g hg.2.2.2.2.1 g.Rounds
  have hk : (g.Rounds : Int) ≤ 32 := by exact_mod_cast h32
  have hs := (refRun_inv g g.Rounds).small
  have hpow : (4 : Nat) ^ g.Rounds ≤ 4 ^ 32 := Nat.pow_le_pow_right (by decide) h32
  have e : (4 : Nat) ^ 32 = 2 ^ 64 := by norm_num
  refine ⟨⟨?_, ?_⟩, ⟨?_, ?_⟩, ?_⟩ <;> omega

/-! ## The claims -/

/-- C1: for every game with `1 ≤ Rounds ≤ 32`, `SimulateMatch` (unrolled rounds
1, 2, 3 and the loop from round 4) returns exactly the scores and the history
of the uniform round-by-round reference. -/
theorem simulateMatch_refines_reference (g : PairGame) (h1 : 1 ≤ g.Rounds)
    (h32 : g.Rounds ≤ 32) : SimulateMatch g = some (refSimulate g) :=
  SimulateMatch_eq_ref g h1 h32

theorem simulateMatch_refines_reference_witness :
    (1 ≤ gameTFTvsCooperateMistake.Rounds ∧ gameTFTvsCooperateMistake.Rounds ≤ 32) ∧
      SimulateMatch gameTFTvsCooperateMistake = some (refSimulate gameTFTvsCooperateMistake) ∧
      SimulateMatch gameTFTvsCooperateMistake = some (18, 18, 0xFFE7F) :=
  ⟨by decide,
    simulateMatch_refines_reference gameTFTvsCooperateMistake (by decide) (by decide),
    by decide⟩

/-- C2: for every game with `1 ≤ Rounds ≤ 32` the returned scores are the sums,
over the `Rounds` 2-bit pairs of the returned history, of the payoff of the
pair (score of `A`) and of the payoff of the pair with its bits exchanged
(score of `B`). -/
theorem scores_determined_by_history (g : PairGame) (h1 : 1 ≤ g.Rounds)
    (h32 : g.Rounds ≤ 32) :
    ∃ scoreA scoreB history, SimulateMatch g = some (scoreA, scoreB, history) ∧
      scoreA = ∑ r ∈ Finset.Icc 1 g.Rounds, refPayoff g (pairAt history g.Rounds r) ∧
      scoreB = ∑ r ∈ Finset.Icc 1 g.Rounds,
        refPayoff g (swapBits (pairAt history g.Rounds r)) := by
  refine ⟨_, _, _, SimulateMatch_eq_ref g h1 h32, ?_, ?_⟩
  · rw [scoreA_sum]
    refine Finset.sum_congr rfl fun r hr => ?_
    rw [Finset.mem_Icc] at hr
    rw [pairAt_history g _ r hr.1 hr.2]
  · rw [scoreB_sum]
    refine Finset.sum_congr rfl fun r hr => ?_
    rw [Finset.mem_Icc] at hr
    rw [pairAt_history g _ r hr.1 hr.2]

theorem scores_determined_by_history_witness :
    (1 ≤ gameTFTvsCooperateMistake.Rounds ∧ gameTFTvsCooperateMistake.Rounds ≤ 32) ∧
      ∃ scoreA scoreB history,
        SimulateMatch gameTFTvsCooperateMistake = some (scoreA, scoreB, history) ∧
        scoreA = ∑ r ∈ Finset.Icc 1 gameTFTvsCooperateMistake.Rounds,
          refPayoff gameTFTvsCooperateMistake
            (pairAt history gameTFTvsCooperateMistake.Rounds r) ∧
        scoreB = ∑ r ∈ Finset.Icc 1 gameTFTvsCooperateMistake.Rounds,
          refPayoff gameTFTvsCooperateMistake
            (swapBits (pairAt history gameTFTvsCooperateMistake.Rounds r)) :=
  ⟨by decide, scores_determined_by_history gameTFTvsCooperateMistake (by decide) (by decide)⟩

theorem refRun_rounds (g : PairGame) (n k : Nat) :
    refRun { g with Rounds := n } k = refRun g k := by
  induction k with
  | zero => rfl
  | succ k ih =>
    show refRound { g with Rounds := n } (k + 1) (refRun { g with Rounds := n } k) = _
    rw [ih]
    rfl

theorem history_succ (g : PairGame) (k : Nat) :
    (refRun g (k + 1)).history = ((refRun g k).history <<< 2) ||| outcomeA g (k + 1) := rfl

/-- C3: for `1 ≤ k ≤ 31` and two games that differ only in `Rounds` (`k` and
`k + 1`), the history for `k` rounds is the history for `k + 1` rounds without
its last 2-bit pair: the first `k` outcomes are the same. -/
theorem history_round_monotone (g : PairGame) (k : Nat) (h1 : 1 ≤ k) (h31 : k ≤ 31) :
    ∃ scoreA scoreB history scoreA' scoreB' history',
      SimulateMatch { g with Rounds := k } = some (scoreA, scoreB, history) ∧
      SimulateMatch { g with Rounds := k + 1 } = some (scoreA', scoreB', history') ∧
      history' >>> 2 = history ∧
      ∀ r, 1 ≤ r → r ≤ k → pairAt history' (k + 1) r = pairAt history k r := by
  refine ⟨_, _, _, _, _, _,
    SimulateMatch_eq_ref { g with Rounds := k } h1 (by show k ≤ 32; omega),
    SimulateMatch_eq_ref { g with Rounds := k + 1 } (by show 1 ≤ k + 1; omega)
      (by show k + 1 ≤ 32; omega), ?_, ?_⟩
  · show (refRun { g with Rounds := k + 1 } (k + 1)).history >>> 2
      = (refRun { g with Rounds := k } k).history
    rw [refRun_rounds g (k + 1) (k + 1), refRun_rounds g k k, history_succ,
      pair_high _ _ (outcomeA_lt g _)]
  · intro r hr1 hrk
    show pairAt (refRun { g with Rounds := k + 1 } (k + 1)).history (k + 1) r
      = pairAt (refRun { g with Rounds := k } k).history k r
    rw [refRun_rounds g (k + 1) (k + 1), refRun_rounds g k k,
      pairAt_history g _ r hr1 (by omega),
      pairAt_history g _ r hr1 hrk]

theorem history_round_monotone_witness :
    (1 ≤ 9 ∧ 9 ≤ 31) ∧
      ∃ scoreA scoreB history scoreA' scoreB' history',
        SimulateMatch { gameTFTvsCooperateMistake with Rounds := 9 }
          = some (scoreA, scoreB, history) ∧
        SimulateMatch { gameTFTvsCooperateMistake with Rounds := 9 + 1 }
          = some (scoreA', scoreB', history') ∧
        history' >>> 2 = history ∧
        ∀ r, 1 ≤ r → r ≤ 9 → pairAt history' (9 + 1) r = pairAt history 9 r :=
  ⟨by decide, history_round_monotone gameTFTvsCooperateMistake 9 (by decide) (by decide)⟩

theorem actualMove_mistake (s : PureStrategy) (m r : Nat) (past : List Nat)
    (h : bitAt m (r - 1) = 1) : actualMove s m r past = 0 := by
  unfold actualMove
  rw [h]
  simp

theorem actualMove_clear (s : PureStrategy) (m r : Nat) (past : List Nat)
    (h : bitAt m (r - 1) = 0) : actualMove s m r past = intendedMove s past := by
  unfold actualMove
  rw [h]
  have hlt : intendedMove s past < 2 := by
    unfold intendedMove
    split <;> exact bitAt_lt _ _
  rw [show (1 : Nat) - 0 = 1 by rfl, Nat.and_one_is_mod]
  omega

/-- C4: a forced mistake yields defeat, bit 0 of a mask being round 1: in every
game with `1 ≤ Rounds ≤ 32` and every round `r ≤ Rounds`, a set bit `r - 1` of
`MistakesA` makes the high bit of the `r`-th pair of the history `0`, and a set
bit `r - 1` of `MistakesB` makes its low bit `0`. -/
theorem mistake_forces_defeat (g : PairGame) (h1 : 1 ≤ g.Rounds) (h32 : g.Rounds ≤ 32) :
    ∃ scoreA scoreB history, SimulateMatch g = some (scoreA, scoreB, history) ∧
      ∀ r, 1 ≤ r → r ≤ g.Rounds →
        (bitAt g.MistakesA (r - 1) = 1 → bitAt (pairAt history g.Rounds r) 1 = 0) ∧
        (bitAt g.MistakesB (r - 1) = 1 → bitAt (pairAt history g.Rounds r) 0 = 0) := by
  refine ⟨_, _, _, SimulateMatch_eq_ref g h1 h32, ?_⟩
  intro r hr1 hrn
  rw [pairAt_history g _ r hr1 hrn]
  obtain ⟨k, rfl⟩ : ∃ k, r = k + 1 := ⟨r - 1, by omega⟩
  rw [moveA_bit, moveB_bit]
  exact ⟨fun h => actualMove_mistake _ _ _ _ h, fun h => actualMove_mistake _ _ _ _ h⟩

theorem mistake_forces_defeat_witness :
    (1 ≤ gameTFTvsCooperateMistake.Rounds ∧ gameTFTvsCooperateMistake.Rounds ≤ 32) ∧
      ∃ scoreA scoreB history,
        SimulateMatch gameTFTvsCooperateMistake = some (scoreA, scoreB, history) ∧
        ∀ r, 1 ≤ r → r ≤ gameTFTvsCooperateMistake.Rounds →
          (bitAt gameTFTvsCooperateMistake.MistakesA (r - 1) = 1 →
            bitAt (pairAt history gameTFTvsCooperateMistake.Rounds r) 1 = 0) ∧
          (bitAt gameTFTvsCooperateMistake.MistakesB (r - 1) = 1 →
            bitAt (pairAt history gameTFTvsCooperateMistake.Rounds r) 0 = 0) :=
  ⟨by decide, mistake_forces_defeat gameTFTvsCooperateMistake (by decide) (by decide)⟩

theorem refRun_masks (g : PairGame) (mA mB n : Nat)
    (hA : ∀ i < n, bitAt mA i = bitAt g.MistakesA i)
    (hB : ∀ i < n, bitAt mB i = bitAt g.MistakesB i) (k : Nat) (hk : k ≤ n) :
    refRun { g with MistakesA := mA, MistakesB := mB } k = refRun g k := by
  induction k with
  | zero => rfl
  | succ k ih =>
    show refRound { g with MistakesA := mA, MistakesB := mB } (k + 1)
      (refRun { g with MistakesA := mA, MistakesB := mB } k) = refRound g (k + 1) (refRun g k)
    rw [ih (by omega)]
    simp only [refRound, actualMove, Nat.add_sub_cancel, hA k (by omega), hB k (by omega)]
    rfl

/-- C5: mistake bits at positions `≥ Rounds` are not consulted: two games with
`1 ≤ Rounds ≤ 32` that are equal except for mask bits at positions `≥ Rounds`
give the same scores and the same history. -/
theorem mistakes_beyond_rounds_ignored (g : PairGame) (mA mB : Nat) (h1 : 1 ≤ g.Rounds)
    (h32 : g.Rounds ≤ 32) (hA : ∀ i < g.Rounds, bitAt mA i = bitAt g.MistakesA i)
    (hB : ∀ i < g.Rounds, bitAt mB i = bitAt g.MistakesB i) :
    ∃ result, SimulateMatch g = some result ∧
      SimulateMatch { g with MistakesA := mA, MistakesB := mB } = some result := by
  refine ⟨_, SimulateMatch_eq_ref g h1 h32, ?_⟩
  rw [SimulateMatch_eq_ref { g with MistakesA := mA, MistakesB := mB } h1 h32]
  show some ((refRun { g with MistakesA := mA, MistakesB := mB } g.Rounds).scoreA,
    (refRun { g with MistakesA := mA, MistakesB := mB } g.Rounds).scoreB,
    (refRun { g with MistakesA := mA, MistakesB := mB } g.Rounds).history) = _
  rw [refRun_masks g mA mB g.Rounds hA hB g.Rounds (le_refl _)]
  rfl

theorem mistakes_beyond_rounds_ignored_witness :
    (1 ≤ gameTFTvsCooperateMistake.Rounds ∧ gameTFTvsCooperateMistake.Rounds ≤ 32 ∧
      (∀ i < gameTFTvsCooperateMistake.Rounds,
        bitAt (1 <<< 12) i = bitAt gameTFTvsCooperateMistake.MistakesA i) ∧
      (∀ i < gameTFTvsCooperateMistake.Rounds,
        bitAt (1 <<< 5 ||| 1 <<< 40) i = bitAt gameTFTvsCooperateMistake.MistakesB i)) ∧
      ∃ result, SimulateMatch gameTFTvsCooperateMistake = some result ∧
        SimulateMatch { gameTFTvsCooperateMistake with
          MistakesA := 1 <<< 12, MistakesB := 1 <<< 5 ||| 1 <<< 40 } = some result :=
  ⟨by decide,
    mistakes_beyond_rounds_ignored gameTFTvsCooperateMistake (1 <<< 12) (1 <<< 5 ||| 1 <<< 40)
      (by decide) (by decide) (by decide) (by decide)⟩

theorem pastA_three (g : PairGame) (j : Nat) :
    (refRun g (j + 3)).pastA
      = outcomeA g (j + 3) :: outcomeA g (j + 2) :: outcomeA g (j + 1) :: (refRun g j).pastA :=
  rfl

/-- C6: sliding window for rounds `≥ 4`: in every game with `4 ≤ Rounds ≤ 32`
and every round `4 ≤ r ≤ Rounds`, with `p j` the `j`-th pair of the returned
history, a clear bit `r - 1` of `MistakesA` makes the move of `A` in round `r`
bit `(p (r-3) << 4) | (p (r-2) << 2) | p (r-1)` of `A.MoveN`, and a clear bit
`r - 1` of `MistakesB` makes the move of `B` the bit of `B.MoveN` at the same
index built from the pairs with their bits exchanged. -/
theorem sliding_window_index (g : PairGame) (h4 : 4 ≤ g.Rounds) (h32 : g.Rounds ≤ 32) :
    ∃ scoreA scoreB history, SimulateMatch g = some (scoreA, scoreB, history) ∧
      ∀ r, 4 ≤ r → r ≤ g.Rounds →
        (bitAt g.MistakesA (r - 1) = 0 →
          bitAt (pairAt history g.Rounds r) 1
            = bitAt g.A.MoveN
                ((pairAt history g.Rounds (r - 3) <<< 4)
                  ||| (pairAt history g.Rounds (r - 2) <<< 2)
                  ||| pairAt history g.Rounds (r - 1))) ∧
        (bitAt g.MistakesB (r - 1) = 0 →
          bitAt (pairAt history g.Rounds r) 0
            = bitAt g.B.MoveN
                ((swapBits (pairAt history g.Rounds (r - 3)) <<< 4)
                  ||| (swapBits (pairAt history g.Rounds (r - 2)) <<< 2)
                  ||| swapBits (pairAt history g.Rounds (r - 1)))) := by
  refine ⟨_, _, _, SimulateMatch_eq_ref g (by omega) h32, ?_⟩
  intro r hr4 hrn
  obtain ⟨j, rfl⟩ : ∃ j, r = j + 4 := ⟨r - 4, by omega⟩
  rw [pairAt_history g _ (j + 4) (by omega) hrn,
    pairAt_history g _ (j + 4 - 3) (by omega) (by omega),
    pairAt_history g _ (j + 4 - 2) (by omega) (by omega),
    pairAt_history g _ (j + 4 - 1) (by omega) (by omega)]
  rw [show j + 4 - 3 = j + 1 by omega, show j + 4 - 2 = j + 2 by omega,
    show j + 4 - 1 = j + 3 by omega]
  rw [moveA_bit g (j + 3), moveB_bit g (j + 3), pastB_eq, pastA_three]
  constructor
  · intro h
    rw [actualMove_clear _ _ _ _ h]
    rfl
  · intro h
    rw [actualMove_clear _ _ _ _ h]
    rfl

theorem sliding_window_index_witness :
    (4 ≤ gameTFTvsCooperateMistake.Rounds ∧ gameTFTvsCooperateMistake.Rounds ≤ 32) ∧
      ∃ scoreA scoreB history,
        SimulateMatch gameTFTvsCooperateMistake = some (scoreA, scoreB, history) ∧
        ∀ r, 4 ≤ r → r ≤ gameTFTvsCooperateMistake.Rounds →
          (bitAt gameTFTvsCooperateMistake.MistakesA (r - 1) = 0 →
            bitAt (pairAt history gameTFTvsCooperateMistake.Rounds r) 1
              = bitAt gameTFTvsCooperateMistake.A.MoveN
                  ((pairAt history gameTFTvsCooperateMistake.Rounds (r - 3) <<< 4)
                    ||| (pairAt history gameTFTvsCooperateMistake.Rounds (r - 2) <<< 2)
                    ||| pairAt history gameTFTvsCooperateMistake.Rounds (r - 1))) ∧
          (bitAt gameTFTvsCooperateMistake.MistakesB (r - 1) = 0 →
            bitAt (pairAt history gameTFTvsCooperateMistake.Rounds r) 0
              = bitAt gameTFTvsCooperateMistake.B.MoveN
                  ((swapBits (pairAt history gameTFTvsCooperateMistake.Rounds (r - 3)) <<< 4)
                    ||| (swapBits (pairAt history gameTFTvsCooperateMistake.Rounds (r - 2)) <<< 2)
                    ||| swapBits (pairAt history gameTFTvsCooperateMistake.Rounds (r - 1)))) :=
  ⟨by decide, sliding_window_index gameTFTvsCooperateMistake (by decide) (by decide)⟩

/-! ## Exchanging the players -/

theorem refPayoff_swapRoles (g : PairGame) (o : Nat) :
    refPayoff g.swapRoles o = refPayoff g o := rfl

theorem refRun_swapRoles (g : PairGame) (k : Nat) :
    (refRun g.swapRoles k).pastA = (refRun g k).pastB ∧
      (refRun g.swapRoles k).pastB = (refRun g k).pastA ∧
      (refRun g.swapRoles k).scoreA = (refRun g k).scoreB ∧
      (refRun g.swapRoles k).scoreB = (refRun g k).scoreA := by
  induction k with
  | zero => exact ⟨rfl, rfl, rfl, rfl⟩
  | succ k ih =>
    obtain ⟨e1, e2, e3, e4⟩ := ih
    simp only [refRun, refRound, e1, e2, e3, e4, refPayoff_swapRoles]
    exact ⟨rfl, rfl, rfl, rfl⟩

theorem pack_swap (l : List Nat) (hl : ∀ o ∈ l, o < 4) :
    packOutcomes (l.map swapBits) = swapPairs l.length (packOutcomes l) := by
  induction l with
  | nil => rfl
  | cons o t ih =>
    have ho : o < 4 := hl o (by simp)
    have ht : ∀ x ∈ t, x < 4 := fun x hx => hl x (by simp [hx])
    simp only [List.map_cons, packOutcomes, List.length_cons, swapPairs]
    rw [pair_high _ _ ho, pair_low _ _ ho, ih ht]

theorem outcomeA_swapRoles (g : PairGame) (k : Nat) :
    outcomeA g.swapRoles (k + 1) = swapBits (outcomeA g (k + 1)) := by
  have e := (refRun_swapRoles g (k + 1)).1
  unfold outcomeA
  rw [e, pastB_eq, pastA_succ]
  rfl

/-- C7: role-swap symmetry: for every game with `1 ≤ Rounds ≤ 32`, exchanging
`A` with `B` and `MistakesA` with `MistakesB` exchanges the two scores and
exchanges the two bits of each of the `Rounds` pairs of the history: every
round's outcome seen from the other player is the mirror of the outcome of
`A`. -/
theorem role_swap_symmetry (g : PairGame) (h1 : 1 ≤ g.Rounds) (h32 : g.Rounds ≤ 32) :
    ∃ scoreA scoreB history, SimulateMatch g = some (scoreA, scoreB, history) ∧
      SimulateMatch g.swapRoles = some (scoreB, scoreA, swapPairs g.Rounds history) ∧
      ∀ r, 1 ≤ r → r ≤ g.Rounds →
        pairAt (swapPairs g.Rounds history) g.Rounds r
          = swapBits (pairAt history g.Rounds r) := by
  obtain ⟨e1, _, e3, e4⟩ := refRun_swapRoles g g.Rounds
  have inv := refRun_inv g g.Rounds
  have inv' := refRun_inv g.swapRoles g.Rounds
  have eh : (refRun g.swapRoles g.Rounds).history
      = swapPairs g.Rounds (refRun g g.Rounds).history := by
    rw [inv'.packed, e1, inv.mirror, pack_swap _ inv.boundA, inv.lenA, ← inv.packed]
  refine ⟨_, _, _, SimulateMatch_eq_ref g h1 h32, ?_, ?_⟩
  · rw [SimulateMatch_eq_ref g.swapRoles h1 h32]
    show some ((refRun g.swapRoles g.Rounds).scoreA, (refRun g.swapRoles g.Rounds).scoreB,
      (refRun g.swapRoles g.Rounds).history) = _
    rw [e3, e4, eh]
  · intro r hr1 hrn
    rw [← eh]
    have hp := pairAt_history g.swapRoles g.Rounds r hr1 hrn
    obtain ⟨k, rfl⟩ : ∃ k, r = k + 1 := ⟨r - 1, by omega⟩
    rw [hp, outcomeA_swapRoles, pairAt_history g g.Rounds (k + 1) hr1 hrn]

theorem role_swap_symmetry_witness :
    (1 ≤ gameTFTvsCooperateMistake.Rounds ∧ gameTFTvsCooperateMistake.Rounds ≤ 32) ∧
      ∃ scoreA scoreB history,
        SimulateMatch gameTFTvsCooperateMistake = some (scoreA, scoreB, history) ∧
        SimulateMatch gameTFTvsCooperateMistake.swapRoles
          = some (scoreB, scoreA, swapPairs gameTFTvsCooperateMistake.Rounds history) ∧
        ∀ r, 1 ≤ r → r ≤ gameTFTvsCooperateMistake.Rounds →
          pairAt (swapPairs gameTFTvsCooperateMistake.Rounds history)
              gameTFTvsCooperateMistake.Rounds r
            = swapBits (pairAt history gameTFTvsCooperateMistake.Rounds r) :=
  ⟨by decide, role_swap_symmetry gameTFTvsCooperateMistake (by decide) (by decide)⟩

/-! ## Mutual cooperation -/

theorem intendedMove_allC (s : PureStrategy) (hs : CooperationFixedPoint s) (k : Nat) :
    intendedMove s (List.replicate k 3) = 1 := by
  obtain ⟨h1, h2, h3, hN⟩ := hs
  match k with
  | 0 => simp [intendedMove, h1, bitAt]
  | 1 => simpa [intendedMove] using h2
  | 2 => simpa [intendedMove, List.replicate] using h3
  | j + 3 => simpa [intendedMove, List.replicate] using hN

theorem bitAt_zero_left (i : Nat) : bitAt 0 i = 0 := by
  simp [bitAt]

theorem refRun_allC (s : PureStrategy) (hs : CooperationFixedPoint s) (P : Fin 4 → Int)
    (n k : Nat) :
    refRun { A := s, B := s, MistakesA := 0, MistakesB := 0, Payoffs := P, Rounds := n } k
      = { scoreA := k * P 3, scoreB := k * P 3, history := 4 ^ k - 1,
          pastA := List.replicate k 3, pastB := List.replicate k 3 } := by
  induction k with
  | zero => simp [refRun]
  | succ k ih =>
    have hm : actualMove s 0 (k + 1) (List.replicate k 3) = 1 := by
      rw [actualMove_clear _ _ _ _ (bitAt_zero_left _)]
      exact intendedMove_allC s hs k
    have hp : (1 : Nat) ≤ 4 ^ k := Nat.one_le_pow _ _ (by decide)
    have hh : ((4 ^ k - 1) <<< 2) ||| 3 = 4 ^ (k + 1) - 1 := by
      rw [shl2_or _ _ (by decide), pow_succ]
      omega
    have h3 : (1 <<< 1) ||| 1 = 3 := by decide
    have hpay : refPayoff
        { A := s, B := s, MistakesA := 0, MistakesB := 0, Payoffs := P, Rounds := n } 3
          = P 3 := rfl
    simp only [refRun, refRound]
    simp only [refRun] at ih
    rw [ih]
    simp only [hm, h3, hh, hpay, List.replicate_succ]
    push_cast
    congr 1 <;> ring

/-- C8: mutual cooperation is a fixed point: a strategy with `Move1 = 1` and
cooperate entries at bit 3 of `Move2`, bit 15 of `Move3` and bit 63 of `MoveN`,
played against itself without mistakes for `1 ≤ n ≤ 32` rounds, gives the
history `4 ^ n - 1` (every pair is `C`) and both scores `n * Payoffs[3]`; the
strategies Always-Cooperate, TFT, Pavlov and TFTWF are such strategies. -/
theorem mutual_cooperation_fixed_point (s : PureStrategy) (P : Fin 4 → Int) (n : Nat)
    (hs : CooperationFixedPoint s) (h1 : 1 ≤ n) (h32 : n ≤ 32) :
    (SimulateMatch { A := s, B := s, MistakesA := 0, MistakesB := 0, Payoffs := P, Rounds := n }
        = some (n * P 3, n * P 3, 4 ^ n - 1) ∧
      ∀ r, 1 ≤ r → r ≤ n → pairAt (4 ^ n - 1) n r = 3) ∧
    CooperationFixedPoint StrategyAlwaysCooperate ∧ CooperationFixedPoint StrategyTFT ∧
    CooperationFixedPoint StrategyPavlov ∧ CooperationFixedPoint StrategyTFTWF := by
  have hrun := refRun_allC s hs P n n
  have hsim := SimulateMatch_eq_ref
    { A := s, B := s, MistakesA := 0, MistakesB := 0, Payoffs := P, Rounds := n } h1 h32
  refine ⟨⟨?_, ?_⟩, by decide, by decide, by decide, by decide⟩
  · rw [hsim, refSimulate]
    simp only []
    rw [hrun]
  · intro r hr1 hrn
    have hp := pairAt_history
      { A := s, B := s, MistakesA := 0, MistakesB := 0, Payoffs := P, Rounds := n } n r hr1 hrn
    have ho := pastA_getD
      { A := s, B := s, MistakesA := 0, MistakesB := 0, Payoffs := P, Rounds := n } n (n - r)
      (by omega)
    rw [hrun] at hp ho
    simp only [] at hp ho
    rw [hp, ← show n - (n - r) = r by omega, ← ho]
    rw [List.getD_eq_getElem _ _ (by simp; omega)]
    simp

theorem mutual_cooperation_fixed_point_witness :
    (CooperationFixedPoint StrategyPavlov ∧ 1 ≤ 10 ∧ 10 ≤ 32) ∧
      (SimulateMatch
          { A := StrategyPavlov, B := StrategyPavlov, MistakesA := 0, MistakesB := 0,
            Payoffs := DefaultPayoffs, Rounds := 10 }
          = some (((10 : Nat) : Int) * DefaultPayoffs 3, ((10 : Nat) : Int) * DefaultPayoffs 3,
              4 ^ 10 - 1) ∧
        ∀ r, 1 ≤ r → r ≤ 10 → pairAt (4 ^ 10 - 1) 10 r = 3) ∧
      CooperationFixedPoint StrategyAlwaysCooperate ∧ CooperationFixedPoint StrategyTFT ∧
      CooperationFixedPoint StrategyPavlov ∧ CooperationFixedPoint StrategyTFTWF :=
  ⟨by decide,
    mutual_cooperation_fixed_point StrategyPavlov DefaultPayoffs 10 (by decide) (by decide)
      (by decide)⟩

/-! ## Tit-for-Tat -/

theorem tft_move2 : ∀ o < 4, bitAt StrategyTFT.Move2 o = bitAt o 0 := by
  decide

theorem tft_move3 :
    ∀ o1 < 4, ∀ o2 < 4, bitAt StrategyTFT.Move3 ((o1 <<< 2) ||| o2) = bitAt o2 0 := by
  decide

theorem tft_moveN :
    ∀ o1 < 4, ∀ o2 < 4, ∀ o3 < 4,
      bitAt StrategyTFT.MoveN ((o1 <<< 4) ||| (o2 <<< 2) ||| o3) = bitAt o3 0 := by
  decide

theorem tft_intended (o : Nat) (past : List Nat) (ho : o < 4) (hp : ∀ x ∈ past, x < 4) :
    intendedMove StrategyTFT (o :: past) = bitAt o 0 := by
  match past, hp with
  | [], _ => exact tft_move2 o ho
  | [o1], hp => exact tft_move3 o1 (hp o1 (by simp)) o ho
  | o2 :: o1 :: _, hp =>
    exact tft_moveN o1 (hp o1 (by simp)) o2 (hp o2 (by simp)) o ho

/-- C9, as stated, fails: with bit 0 of `MistakesA` set, Tit-for-Tat as player
`A` defeats in round 1 (the pair of round 1 is D/C, its high bit is 0), so "`A`
cooperates in round 1" does not hold for every game with `A = StrategyTFT`. -/
theorem tft_round1_mistake_defeats :
    SimulateMatch
        { A := StrategyTFT, B := StrategyAlwaysCooperate, MistakesA := 1, MistakesB := 0,
          Payoffs := DefaultPayoffs, Rounds := 1 }
      = some ((3 : Int), (-1 : Int), 1) ∧
    bitAt (pairAt 1 1 1) 1 = 0 ∧
    ¬ ∀ g : PairGame, g.A = StrategyTFT → 1 ≤ g.Rounds → g.Rounds ≤ 32 →
        ∃ scoreA scoreB history, SimulateMatch g = some (scoreA, scoreB, history) ∧
          bitAt (pairAt history g.Rounds 1) 1 = 1 := by
  refine ⟨by decide, by decide, ?_⟩
  intro h
  obtain ⟨sA, sB, hist, hs, hb⟩ := h
    { A := StrategyTFT, B := StrategyAlwaysCooperate, MistakesA := 1, MistakesB := 0,
      Payoffs := DefaultPayoffs, Rounds := 1 } rfl (by decide) (by decide)
  have e : SimulateMatch
      { A := StrategyTFT, B := StrategyAlwaysCooperate, MistakesA := 1, MistakesB := 0,
        Payoffs := DefaultPayoffs, Rounds := 1 } = some ((3 : Int), (-1 : Int), 1) := by decide
  rw [e] at hs
  simp only [Option.some.injEq, Prod.mk.injEq] at hs
  obtain ⟨_, _, rfl⟩ := hs
  revert hb
  decide

/-- C9, amended: Tit-for-Tat plays the opponent's last move: in every game with
`A = StrategyTFT` and `1 ≤ Rounds ≤ 32`, `A` cooperates in round 1 when bit 0 of
`MistakesA` is clear and, in every round `2 ≤ r ≤ Rounds` whose bit `r - 1` of
`MistakesA` is clear, plays the actual move of `B` in the round before (high bit
of pair `r` = low bit of pair `r - 1`), in rounds 2, 3 and `≥ 4` alike. -/
theorem tft_plays_opponents_last_move (g : PairGame) (hA : g.A = StrategyTFT)
    (h1 : 1 ≤ g.Rounds) (h32 : g.Rounds ≤ 32) :
    ∃ scoreA scoreB history, SimulateMatch g = some (scoreA, scoreB, history) ∧
      (bitAt g.MistakesA 0 = 0 → bitAt (pairAt history g.Rounds 1) 1 = 1) ∧
      ∀ r, 2 ≤ r → r ≤ g.Rounds → bitAt g.MistakesA (r - 1) = 0 →
        bitAt (pairAt history g.Rounds r) 1 = bitAt (pairAt history g.Rounds (r - 1)) 0 := by
  refine ⟨_, _, _, SimulateMatch_eq_ref g h1 h32, ?_, ?_⟩
  · intro h0
    rw [pairAt_history g _ 1 (le_refl _) h1, moveA_bit g 0, actualMove_clear _ _ _ _ h0, hA]
    rfl
  · intro r hr2 hrn hclear
    obtain ⟨j, rfl⟩ : ∃ j, r = j + 2 := ⟨r - 2, by omega⟩
    rw [pairAt_history g _ (j + 2) (by omega) hrn,
      pairAt_history g _ (j + 2 - 1) (by omega) (by omega), show j + 2 - 1 = j + 1 by omega,
      moveA_bit g (j + 1), actualMove_clear _ _ _ _ hclear, hA, pastA_succ]
    exact tft_intended _ _ (outcomeA_lt g _) (refRun_inv g j).boundA

theorem tft_plays_opponents_last_move_witness :
    (gameTFTvsCooperateMistake.A = StrategyTFT ∧ 1 ≤ gameTFTvsCooperateMistake.Rounds ∧
      gameTFTvsCooperateMistake.Rounds ≤ 32) ∧
    ∃ scoreA scoreB history,
      SimulateMatch gameTFTvsCooperateMistake = some (scoreA, scoreB, history) ∧
      (bitAt gameTFTvsCooperateMistake.MistakesA 0 = 0 →
        bitAt (pairAt history gameTFTvsCooperateMistake.Rounds 1) 1 = 1) ∧
      ∀ r, 2 ≤ r → r ≤ gameTFTvsCooperateMistake.Rounds →
        bitAt gameTFTvsCooperateMistake.MistakesA (r - 1) = 0 →
        bitAt (pairAt history gameTFTvsCooperateMistake.Rounds r) 1
          = bitAt (pairAt history gameTFTvsCooperateMistake.Rounds (r - 1)) 0 :=
  ⟨by decide,
    tft_plays_opponents_last_move gameTFTvsCooperateMistake (by decide) (by decide) (by decide)⟩

/-- C10, as stated, fails: the entry of `MovesTFT` at index 1 (D/C) is
cooperate and the entry at index 2 (C/D) is defeat, so the entries at 0, 1, 2, 3
are not defeat, defeat, cooperate, cooperate; in the simulator, Tit-for-Tat
forced to defeat a cooperating opponent in round 1 (outcome D/C) cooperates in
round 2. -/
theorem movesTFT_claimed_entries_refuted :
    bitAt MovesTFT 1 = 1 ∧ bitAt MovesTFT 2 = 0 ∧
      ¬ (bitAt MovesTFT 0 = 0 ∧ bitAt MovesTFT 1 = 0 ∧
          bitAt MovesTFT 2 = 1 ∧ bitAt MovesTFT 3 = 1) ∧
      SimulateMatch
          { A := StrategyTFT, B := StrategyAlwaysCooperate, MistakesA := 1, MistakesB := 0,
            Payoffs := DefaultPayoffs, Rounds := 2 }
        = some ((5 : Int), (1 : Int), (1 <<< 2) ||| 3) := by
  decide

/-- C10, amended: the Tit-for-Tat table `MovesTFT = 0b1010`, stored as
`StrategyTFT.Move2`, has at the own-outcome indices 0, 1, 2, 3 (D, D/C, C/D, C)
the entries defeat, cooperate, defeat, cooperate, the entry of index `i` being
bit `i` of the table: it is bit 0 of the index, the opponent's last move. -/
theorem movesTFT_entries :
    StrategyTFT.Move2 = MovesTFT ∧ MovesTFT = 0b1010 ∧
      bitAt MovesTFT 0 = 0 ∧ bitAt MovesTFT 1 = 1 ∧
      bitAt MovesTFT 2 = 0 ∧ bitAt MovesTFT 3 = 1 ∧
      ∀ i < 4, bitAt MovesTFT i = bitAt i 0 := by
  decide


/-! ## Pavlov -/

theorem boundB (g : PairGame) (k : Nat) : ∀ o ∈ (refRun g k).pastB, o < 4 := by
  intro o ho
  rw [pastB_eq, List.mem_map] at ho
  obtain ⟨x, hx, rfl⟩ := ho
  exact swapBits_lt x ((refRun_inv g k).boundA x hx)

theorem pavlov_move2 :
    ∀ o < 4, bitAt StrategyPavlov.Move2 o = if o = 0 ∨ o = 3 then 1 else 0 := by
  decide

theorem pavlov_move3 :
    ∀ o1 < 4, ∀ o2 < 4,
      bitAt StrategyPavlov.Move3 ((o1 <<< 2) ||| o2) = if o2 = 0 ∨ o2 = 3 then 1 else 0 := by
  decide

theorem pavlov_moveN :
    ∀ o1 < 4, ∀ o2 < 4, ∀ o3 < 4,
      bitAt StrategyPavlov.MoveN ((o1 <<< 4) ||| (o2 <<< 2) ||| o3)
        = if o3 = 0 ∨ o3 = 3 then 1 else 0 := by
  decide

theorem pavlov_intended (o : Nat) (past : List Nat) (ho : o < 4) (hp : ∀ x ∈ past, x < 4) :
    intendedMove StrategyPavlov (o :: past) = if o = 0 ∨ o = 3 then 1 else 0 := by
  match past, hp with
  | [], _ => exact pavlov_move2 o ho
  | [o1], hp => exact pavlov_move3 o1 (hp o1 (by simp)) o ho
  | o2 :: o1 :: _, hp =>
    exact pavlov_moveN o1 (hp o1 (by simp)) o2 (hp o2 (by simp)) o ho

/-- C11, as stated, fails: with bit 0 of `MistakesA` set, Pavlov as player `A`
defeats in round 1 (the pair of round 1 is D/C, its high bit is 0), so "`A`
cooperates in round 1" does not hold for every game with `A = StrategyPavlov`. -/
theorem pavlov_round1_mistake_defeats :
    SimulateMatch
        { A := StrategyPavlov, B := StrategyAlwaysCooperate, MistakesA := 1, MistakesB := 0,
          Payoffs := DefaultPayoffs, Rounds := 1 }
      = some ((3 : Int), (-1 : Int), 1) ∧
    bitAt (pairAt 1 1 1) 1 = 0 ∧
    ¬ ∀ g : PairGame, g.A = StrategyPavlov → 1 ≤ g.Rounds → g.Rounds ≤ 32 →
        ∃ scoreA scoreB history, SimulateMatch g = some (scoreA, scoreB, history) ∧
          bitAt (pairAt history g.Rounds 1) 1 = 1 := by
  refine ⟨by decide, by decide, ?_⟩
  intro h
  obtain ⟨sA, sB, hist, hs, hb⟩ := h
    { A := StrategyPavlov, B := StrategyAlwaysCooperate, MistakesA := 1, MistakesB := 0,
      Payoffs := DefaultPayoffs, Rounds := 1 } rfl (by decide) (by decide)
  have e : SimulateMatch
      { A := StrategyPavlov, B := StrategyAlwaysCooperate, MistakesA := 1, MistakesB := 0,
        Payoffs := DefaultPayoffs, Rounds := 1 } = some ((3 : Int), (-1 : Int), 1) := by decide
  rw [e] at hs
  simp only [Option.some.injEq, Prod.mk.injEq] at hs
  obtain ⟨_, _, rfl⟩ := hs
  revert hb
  decide

/-- C11, amended: Pavlov is win-stay-lose-shift: in every game with
`A = StrategyPavlov` and `1 ≤ Rounds ≤ 32`, `A` cooperates in round 1 when bit 0
of `MistakesA` is clear and, in every round `2 ≤ r ≤ Rounds` whose bit `r - 1`
of `MistakesA` is clear, `A` cooperates if and only if both players made the
same move in round `r - 1` (pair `r - 1` of the history is D = 0 or C = 3). -/
theorem pavlov_win_stay_lose_shift (g : PairGame) (hA : g.A = StrategyPavlov)
    (h1 : 1 ≤ g.Rounds) (h32 : g.Rounds ≤ 32) :
    ∃ scoreA scoreB history, SimulateMatch g = some (scoreA, scoreB, history) ∧
      (bitAt g.MistakesA 0 = 0 → bitAt (pairAt history g.Rounds 1) 1 = 1) ∧
      ∀ r, 2 ≤ r → r ≤ g.Rounds → bitAt g.MistakesA (r - 1) = 0 →
        (bitAt (pairAt history g.Rounds r) 1 = 1 ↔
          (pairAt history g.Rounds (r - 1) = 0 ∨ pairAt history g.Rounds (r - 1) = 3)) := by
  refine ⟨_, _, _, SimulateMatch_eq_ref g h1 h32, ?_, ?_⟩
  · intro h0
    rw [pairAt_history g _ 1 (le_refl _) h1, moveA_bit g 0, actualMove_clear _ _ _ _ h0, hA]
    rfl
  · intro r hr2 hrn hclear
    obtain ⟨j, rfl⟩ : ∃ j, r = j + 2 := ⟨r - 2, by omega⟩
    rw [pairAt_history g _ (j + 2) (by omega) hrn,
      pairAt_history g _ (j + 2 - 1) (by omega) (by omega), show j + 2 - 1 = j + 1 by omega,
      moveA_bit g (j + 1), actualMove_clear _ _ _ _ hclear, hA, pastA_succ,
      pavlov_intended _ _ (outcomeA_lt g _) (refRun_inv g j).boundA]
    split <;> simp_all

theorem pavlov_win_stay_lose_shift_witness :
    (gamePavlovMistakeVsPavlov.A = StrategyPavlov ∧ 1 ≤ gamePavlovMistakeVsPavlov.Rounds ∧
      gamePavlovMistakeVsPavlov.Rounds ≤ 32) ∧
    ∃ scoreA scoreB history,
      SimulateMatch gamePavlovMistakeVsPavlov = some (scoreA, scoreB, history) ∧
      (bitAt gamePavlovMistakeVsPavlov.MistakesA 0 = 0 →
        bitAt (pairAt history gamePavlovMistakeVsPavlov.Rounds 1) 1 = 1) ∧
      ∀ r, 2 ≤ r → r ≤ gamePavlovMistakeVsPavlov.Rounds →
        bitAt gamePavlovMistakeVsPavlov.MistakesA (r - 1) = 0 →
        (bitAt (pairAt history gamePavlovMistakeVsPavlov.Rounds r) 1 = 1 ↔
          (pairAt history gamePavlovMistakeVsPavlov.Rounds (r - 1) = 0 ∨
            pairAt history gamePavlovMistakeVsPavlov.Rounds (r - 1) = 3)) :=
  ⟨by decide,
    pavlov_win_stay_lose_shift gamePavlovMistakeVsPavlov (by decide) (by decide) (by decide)⟩

/-! ## Tit-for-Tat with forgiveness -/

theorem tftwf_move2 : ∀ o < 4, bitAt StrategyTFTWF.Move2 o = 1 := by
  decide

theorem tftwf_move3 :
    ∀ o1 < 4, ∀ o2 < 4,
      bitAt StrategyTFTWF.Move3 ((o1 <<< 2) ||| o2)
        = if bitAt o2 0 = 0 ∧ bitAt o1 0 = 0 then 0 else 1 := by
  decide

theorem tftwf_moveN :
    ∀ o1 < 4, ∀ o2 < 4, ∀ o3 < 4,
      bitAt StrategyTFTWF.MoveN ((o1 <<< 4) ||| (o2 <<< 2) ||| o3)
        = if bitAt o3 0 = 0 ∧ bitAt o2 0 = 0 then 0 else 1 := by
  decide

theorem tftwf_intended (o p : Nat) (past : List Nat) (ho : o < 4) (hq : p < 4)
    (hp : ∀ x ∈ past, x < 4) :
    intendedMove StrategyTFTWF (o :: p :: past)
      = if bitAt o 0 = 0 ∧ bitAt p 0 = 0 then 0 else 1 := by
  match past, hp with
  | [], _ => exact tftwf_move3 p hq o ho
  | o1 :: _, hp => exact tftwf_moveN o1 (hp o1 (by simp)) p hq o ho

/-- C12, as stated, fails: with bit 0 of `MistakesA` set, TFTWF as player `A`
defeats in round 1, and with bit 1 set it defeats in round 2, so "`A` cooperates
in rounds 1 and 2" does not hold for every game with `A = StrategyTFTWF`. -/
theorem tftwf_early_mistake_defeats :
    SimulateMatch
        { A := StrategyTFTWF, B := StrategyAlwaysCooperate, MistakesA := 2, MistakesB := 0,
          Payoffs := DefaultPayoffs, Rounds := 2 }
      = some ((5 : Int), (1 : Int), (3 <<< 2) ||| 1) ∧
    bitAt (pairAt ((3 <<< 2) ||| 1) 2 2) 1 = 0 ∧
    ¬ ∀ g : PairGame, g.A = StrategyTFTWF → 2 ≤ g.Rounds → g.Rounds ≤ 32 →
        ∃ scoreA scoreB history, SimulateMatch g = some (scoreA, scoreB, history) ∧
          bitAt (pairAt history g.Rounds 1) 1 = 1 ∧
          bitAt (pairAt history g.Rounds 2) 1 = 1 := by
  refine ⟨by decide, by decide, ?_⟩
  intro h
  obtain ⟨sA, sB, hist, hs, _, hb⟩ := h
    { A := StrategyTFTWF, B := StrategyAlwaysCooperate, MistakesA := 2, MistakesB := 0,
      Payoffs := DefaultPayoffs, Rounds := 2 } rfl (by decide) (by decide)
  have e : SimulateMatch
      { A := StrategyTFTWF, B := StrategyAlwaysCooperate, MistakesA := 2, MistakesB := 0,
        Payoffs := DefaultPayoffs, Rounds := 2 }
      = some ((5 : Int), (1 : Int), (3 <<< 2) ||| 1) := by decide
  rw [e] at hs
  simp only [Option.some.injEq, Prod.mk.injEq] at hs
  obtain ⟨_, _, rfl⟩ := hs
  revert hb
  decide

/-- C12, amended: Tit-for-Tat-with-forgiveness defects only after two
consecutive opponent defections: in every game with `A = StrategyTFTWF` and
`1 ≤ Rounds ≤ 32`, `A` cooperates in rounds 1 and 2 when the bit of `MistakesA`
of that round is clear and, in every round `3 ≤ r ≤ Rounds` whose bit `r - 1` of
`MistakesA` is clear, `A` defects if and only if the actual move of `B` was
defeat in both round `r - 1` and round `r - 2`; bit `i` of its `Move3` table
`0b1111101011111010` is 0 exactly when bits 0 and 2 of `i` are both 0. -/
theorem tftwf_defects_after_two_defections (g : PairGame) (hA : g.A = StrategyTFTWF)
    (h1 : 1 ≤ g.Rounds) (h32 : g.Rounds ≤ 32) :
    (∃ scoreA scoreB history, SimulateMatch g = some (scoreA, scoreB, history) ∧
      (∀ r, 1 ≤ r → r ≤ 2 → r ≤ g.Rounds → bitAt g.MistakesA (r - 1) = 0 →
        bitAt (pairAt history g.Rounds r) 1 = 1) ∧
      ∀ r, 3 ≤ r → r ≤ g.Rounds → bitAt g.MistakesA (r - 1) = 0 →
        (bitAt (pairAt history g.Rounds r) 1 = 0 ↔
          (bitAt (pairAt history g.Rounds (r - 1)) 0 = 0 ∧
            bitAt (pairAt history g.Rounds (r - 2)) 0 = 0))) ∧
    StrategyTFTWF.Move3 = 0b1111101011111010 ∧
    ∀ i < 16, (bitAt StrategyTFTWF.Move3 i = 0 ↔ (bitAt i 0 = 0 ∧ bitAt i 2 = 0)) := by
  refine ⟨⟨_, _, _, SimulateMatch_eq_ref g h1 h32, ?_, ?_⟩, by decide, by decide⟩
  · intro r hr1 hr2 hrn hclear
    rw [pairAt_history g _ r hr1 hrn]
    obtain ⟨k, rfl⟩ : ∃ k, r = k + 1 := ⟨r - 1, by omega⟩
    rw [moveA_bit g k, actualMove_clear _ _ _ _ hclear, hA]
    have hk : k = 0 ∨ k = 1 := by omega
    rcases hk with rfl | rfl
    · rfl
    · rw [pastA_succ]
      exact tftwf_move2 _ (outcomeA_lt g _)
  · intro r hr3 hrn hclear
    obtain ⟨j, rfl⟩ : ∃ j, r = j + 3 := ⟨r - 3, by omega⟩
    rw [pairAt_history g _ (j + 3) (by omega) hrn,
      pairAt_history g _ (j + 3 - 1) (by omega) (by omega),
      pairAt_history g _ (j + 3 - 2) (by omega) (by omega),
      show j + 3 - 1 = j + 2 by omega, show j + 3 - 2 = j + 1 by omega,
      moveA_bit g (j + 2), actualMove_clear _ _ _ _ hclear, hA, pastA_succ, pastA_succ,
      tftwf_intended _ _ _ (outcomeA_lt g _) (outcomeA_lt g _) (refRun_inv g j).boundA]
    split <;> simp_all

theorem tftwf_defects_after_two_defections_witness :
    (gameTFTWFvsDefeat.A = StrategyTFTWF ∧ 1 ≤ gameTFTWFvsDefeat.Rounds ∧
      gameTFTWFvsDefeat.Rounds ≤ 32) ∧
    (∃ scoreA scoreB history,
      SimulateMatch gameTFTWFvsDefeat = some (scoreA, scoreB, history) ∧
      (∀ r, 1 ≤ r → r ≤ 2 → r ≤ gameTFTWFvsDefeat.Rounds →
        bitAt gameTFTWFvsDefeat.MistakesA (r - 1) = 0 →
        bitAt (pairAt history gameTFTWFvsDefeat.Rounds r) 1 = 1) ∧
      ∀ r, 3 ≤ r → r ≤ gameTFTWFvsDefeat.Rounds →
        bitAt gameTFTWFvsDefeat.MistakesA (r - 1) = 0 →
        (bitAt (pairAt history gameTFTWFvsDefeat.Rounds r) 1 = 0 ↔
          (bitAt (pairAt history gameTFTWFvsDefeat.Rounds (r - 1)) 0 = 0 ∧
            bitAt (pairAt history gameTFTWFvsDefeat.Rounds (r - 2)) 0 = 0))) ∧
    StrategyTFTWF.Move3 = 0b1111101011111010 ∧
    ∀ i < 16, (bitAt StrategyTFTWF.Move3 i = 0 ↔ (bitAt i 0 = 0 ∧ bitAt i 2 = 0)) :=
  ⟨by decide,
    tftwf_defects_after_two_defections gameTFTWFvsDefeat (by decide) (by decide) (by decide)⟩

/-! ## Strategies without memory -/

theorem intended_const (s : PureStrategy) (m : Nat) (h1 : bitAt s.Move1 0 = m)
    (h2 : ∀ o < 4, bitAt s.Move2 o = m)
    (h3 : ∀ o1 < 4, ∀ o2 < 4, bitAt s.Move3 ((o1 <<< 2) ||| o2) = m)
    (hN : ∀ o1 < 4, ∀ o2 < 4, ∀ o3 < 4,
      bitAt s.MoveN ((o1 <<< 4) ||| (o2 <<< 2) ||| o3) = m)
    (past : List Nat) (hp : ∀ x ∈ past, x < 4) : intendedMove s past = m := by
  match past, hp with
  | [], _ => exact h1
  | [o1], hp => exact h2 o1 (hp o1 (by simp))
  | [o2, o1], hp => exact h3 o1 (hp o1 (by simp)) o2 (hp o2 (by simp))
  | o3 :: o2 :: o1 :: _, hp =>
    exact hN o1 (hp o1 (by simp)) o2 (hp o2 (by simp)) o3 (hp o3 (by simp))

theorem withoutMemory_tables :
    ∀ m < 2,
      (NewPureStrategyWithoutMemory m).Move1 = m ∧
      (∀ i < 4, bitAt (NewPureStrategyWithoutMemory m).Move2 i = m) ∧
      (∀ i < 16, bitAt (NewPureStrategyWithoutMemory m).Move3 i = m) ∧
      (∀ i < 64, bitAt (NewPureStrategyWithoutMemory m).MoveN i = m) := by
  decide

theorem index_bounds :
    (∀ o1 < 4, ∀ o2 < 4, (o1 <<< 2) ||| o2 < 16) ∧
      (∀ o1 < 4, ∀ o2 < 4, ∀ o3 < 4, (o1 <<< 4) ||| (o2 <<< 2) ||| o3 < 64) := by
  decide

theorem withoutMemory_intended (m : Nat) (hm : m < 2) (past : List Nat)
    (hp : ∀ x ∈ past, x < 4) : intendedMove (NewPureStrategyWithoutMemory m) past = m := by
  obtain ⟨t1, t2, t3, tN⟩ := withoutMemory_tables m hm
  refine intended_const _ m ?_ t2 ?_ ?_ past hp
  · rw [t1]
    interval_cases m <;> rfl
  · intro o1 h1 o2 h2
    exact t3 _ (index_bounds.1 o1 h1 o2 h2)
  · intro o1 h1 o2 h2 o3 h3
    exact tN _ (index_bounds.2 o1 h1 o2 h2 o3 h3)

/-- C13: a strategy without memory always plays the same move: for `m` in
`{0, 1}`, `NewPureStrategyWithoutMemory m` has `Move1 = m` and every entry of
`Move2` (4 bits), `Move3` (16 bits) and `MoveN` (64 bits) equal to `m`; in every
game with `1 ≤ Rounds ≤ 32` where it is a player, against any opponent and with
any masks, its move in every round `r ≤ Rounds` is `m` when its own mistake bit
`r - 1` is clear and defeat when that bit is set. -/
theorem withoutMemory_constant_move (m : Nat) (hm : m < 2) (g : PairGame)
    (h1 : 1 ≤ g.Rounds) (h32 : g.Rounds ≤ 32) :
    ((NewPureStrategyWithoutMemory m).Move1 = m ∧
      (∀ i < 4, bitAt (NewPureStrategyWithoutMemory m).Move2 i = m) ∧
      (∀ i < 16, bitAt (NewPureStrategyWithoutMemory m).Move3 i = m) ∧
      (∀ i < 64, bitAt (NewPureStrategyWithoutMemory m).MoveN i = m)) ∧
    ∃ scoreA scoreB history, SimulateMatch g = some (scoreA, scoreB, history) ∧
      (g.A = NewPureStrategyWithoutMemory m → ∀ r, 1 ≤ r → r ≤ g.Rounds →
        (bitAt g.MistakesA (r - 1) = 0 → bitAt (pairAt history g.Rounds r) 1 = m) ∧
        (bitAt g.MistakesA (r - 1) = 1 → bitAt (pairAt history g.Rounds r) 1 = 0)) ∧
      (g.B = NewPureStrategyWithoutMemory m → ∀ r, 1 ≤ r → r ≤ g.Rounds →
        (bitAt g.MistakesB (r - 1) = 0 → bitAt (pairAt history g.Rounds r) 0 = m) ∧
        (bitAt g.MistakesB (r - 1) = 1 → bitAt (pairAt history g.Rounds r) 0 = 0)) := by
  refine ⟨withoutMemory_tables m hm, _, _, _, SimulateMatch_eq_ref g h1 h32, ?_, ?_⟩
  · intro hA r hr1 hrn
    rw [pairAt_history g _ r hr1 hrn]
    obtain ⟨k, rfl⟩ : ∃ k, r = k + 1 := ⟨r - 1, by omega⟩
    rw [moveA_bit g k, hA]
    refine ⟨fun h => ?_, fun h => actualMove_mistake _ _ _ _ h⟩
    rw [actualMove_clear _ _ _ _ h]
    exact withoutMemory_intended m hm _ (refRun_inv g k).boundA
  · intro hB r hr1 hrn
    rw [pairAt_history g _ r hr1 hrn]
    obtain ⟨k, rfl⟩ : ∃ k, r = k + 1 := ⟨r - 1, by omega⟩
    rw [moveB_bit g k, hB]
    refine ⟨fun h => ?_, fun h => actualMove_mistake _ _ _ _ h⟩
    rw [actualMove_clear _ _ _ _ h]
    exact withoutMemory_intended m hm _ (boundB g k)

theorem withoutMemory_constant_move_witness :
    (1 < 2 ∧ 1 ≤ gameCooperateMistakeVsCooperate.Rounds ∧
      gameCooperateMistakeVsCooperate.Rounds ≤ 32) ∧
    ((NewPureStrategyWithoutMemory 1).Move1 = 1 ∧
      (∀ i < 4, bitAt (NewPureStrategyWithoutMemory 1).Move2 i = 1) ∧
      (∀ i < 16, bitAt (NewPureStrategyWithoutMemory 1).Move3 i = 1) ∧
      (∀ i < 64, bitAt (NewPureStrategyWithoutMemory 1).MoveN i = 1)) ∧
    ∃ scoreA scoreB history,
      SimulateMatch gameCooperateMistakeVsCooperate = some (scoreA, scoreB, history) ∧
      (gameCooperateMistakeVsCooperate.A = NewPureStrategyWithoutMemory 1 →
        ∀ r, 1 ≤ r → r ≤ gameCooperateMistakeVsCooperate.Rounds →
          (bitAt gameCooperateMistakeVsCooperate.MistakesA (r - 1) = 0 →
            bitAt (pairAt history gameCooperateMistakeVsCooperate.Rounds r) 1 = 1) ∧
          (bitAt gameCooperateMistakeVsCooperate.MistakesA (r - 1) = 1 →
            bitAt (pairAt history gameCooperateMistakeVsCooperate.Rounds r) 1 = 0)) ∧
      (gameCooperateMistakeVsCooperate.B = NewPureStrategyWithoutMemory 1 →
        ∀ r, 1 ≤ r → r ≤ gameCooperateMistakeVsCooperate.Rounds →
          (bitAt gameCooperateMistakeVsCooperate.MistakesB (r - 1) = 0 →
            bitAt (pairAt history gameCooperateMistakeVsCooperate.Rounds r) 0 = 1) ∧
          (bitAt gameCooperateMistakeVsCooperate.MistakesB (r - 1) = 1 →
            bitAt (pairAt history gameCooperateMistakeVsCooperate.Rounds r) 0 = 0)) :=
  ⟨by decide,
    withoutMemory_constant_move 1 (by decide) gameCooperateMistakeVsCooperate (by decide)
      (by decide)⟩


/-! ## Expansion of shallow tables -/

theorem memory1_move3 (move1 move2 : Nat) :
    (NewPureStrategyWithMemory1 move1 move2).Move3
      = shl16 move2 12 ||| shl16 move2 8 ||| shl16 move2 4 ||| move2 := rfl

theorem tile16_bit :
    ∀ m < 16, ∀ i < 16,
      bitAt (shl16 m 12 ||| shl16 m 8 ||| shl16 m 4 ||| m) i = bitAt m (i % 4) := by
  decide

theorem tile16_index :
    ∀ o1 < 4, ∀ o2 < 4, ((o1 <<< 2) ||| o2) % 4 = o2 ∧ (o1 <<< 2) ||| o2 < 16 := by
  decide

/-- C14, as stated, fails: for the `uint8` value `move2 = 0x10` the copies of
`move2` overlap in `Move3`: bit 4 of `Move3` is 1 while bit `4 mod 4 = 0` of
`move2` is 0, and the round-3 decision depends on the round-1 outcome (after the
same round-2 outcome D, the strategy cooperates in round 3 when round 1 was C/D
and defeats when round 1 was D). -/
theorem memory1_tiling_overlaps :
    (16 : Nat) < 2 ^ 8 ∧
    bitAt (NewPureStrategyWithMemory1 1 16).Move3 4 = 1 ∧ bitAt 16 (4 % 4) = 0 ∧
    ¬ (∀ i < 16, bitAt (NewPureStrategyWithMemory1 1 16).Move3 i = bitAt 16 (i % 4)) ∧
    SimulateMatch
        { A := NewPureStrategyWithMemory1 1 16, B := StrategyAlwaysDefeat, MistakesA := 0,
          MistakesB := 0, Payoffs := DefaultPayoffs, Rounds := 3 }
      = some ((-2 : Int), (6 : Int), 0b100010) ∧
    SimulateMatch
        { A := NewPureStrategyWithMemory1 1 16, B := StrategyAlwaysDefeat, MistakesA := 1,
          MistakesB := 0, Payoffs := DefaultPayoffs, Rounds := 3 }
      = some ((0 : Int), (0 : Int), 0b000000) := by
  decide

/-- C14, amended: depth-1 expansion tiles a 4-bit `move2` four times: for every
`move1` and every `move2 < 16`, `NewPureStrategyWithMemory1 move1 move2` has
`Move1 = move1`, `Move2 = move2` and bit `i` of `Move3` equal to bit `i mod 4` of
`move2` for every `i` in `0..15`, so that its round-3 decision is the entry of
`move2` at the most recent outcome, whatever the round-1 outcome. -/
theorem memory1_tiles_move2 (move1 move2 : Nat) (h2 : move2 < 16) :
    (NewPureStrategyWithMemory1 move1 move2).Move1 = move1 ∧
    (NewPureStrategyWithMemory1 move1 move2).Move2 = move2 ∧
    (∀ i < 16, bitAt (NewPureStrategyWithMemory1 move1 move2).Move3 i = bitAt move2 (i % 4)) ∧
    ∀ o1 < 4, ∀ o2 < 4,
      intendedMove (NewPureStrategyWithMemory1 move1 move2) [o2, o1] = bitAt move2 o2 := by
  refine ⟨rfl, rfl, ?_, ?_⟩
  · intro i hi
    rw [memory1_move3]
    exact tile16_bit move2 h2 i hi
  · intro o1 h1 o2 h2'
    show bitAt (NewPureStrategyWithMemory1 move1 move2).Move3 ((o1 <<< 2) ||| o2) = _
    rw [memory1_move3, tile16_bit move2 h2 _ (tile16_index o1 h1 o2 h2').2,
      (tile16_index o1 h1 o2 h2').1]

theorem memory1_tiles_move2_witness :
    MovesPavlov < 16 ∧
    ((NewPureStrategyWithMemory1 1 MovesPavlov).Move1 = 1 ∧
      (NewPureStrategyWithMemory1 1 MovesPavlov).Move2 = MovesPavlov ∧
      (∀ i < 16,
        bitAt (NewPureStrategyWithMemory1 1 MovesPavlov).Move3 i = bitAt MovesPavlov (i % 4)) ∧
      ∀ o1 < 4, ∀ o2 < 4,
        intendedMove (NewPureStrategyWithMemory1 1 MovesPavlov) [o2, o1]
          = bitAt MovesPavlov o2) :=
  ⟨by decide, memory1_tiles_move2 1 MovesPavlov (by decide)⟩

theorem testBit_high (m : Nat) (hm : m < 2 ^ 16) (i : Nat) (hi : 16 ≤ i) :
    m.testBit i = false :=
  Nat.testBit_lt_two_pow (lt_of_lt_of_le hm (Nat.pow_le_pow_right (by decide) hi))

theorem tile64_bit (m : Nat) (hm : m < 2 ^ 16) (j : Nat) (hj : j < 64) :
    bitAt (shl64 m 48 ||| shl64 m 32 ||| shl64 m 16 ||| m) j = bitAt m (j % 16) := by
  rw [bitAt_eq_toNat, bitAt_eq_toNat]
  congr 1
  unfold shl64
  simp only [Nat.testBit_or, Nat.testBit_mod_two_pow, Nat.testBit_shiftLeft, hj, decide_True,
    Bool.true_and]
  have hq : j / 16 = 0 ∨ j / 16 = 1 ∨ j / 16 = 2 ∨ j / 16 = 3 := by omega
  rcases hq with h | h | h | h
  · have e : j % 16 = j := by omega
    have c1 : ¬ j ≥ 48 := by omega
    have c2 : ¬ j ≥ 32 := by omega
    have c3 : ¬ j ≥ 16 := by omega
    simp [e, c1, c2, c3]
  · have e : j % 16 = j - 16 := by omega
    have c1 : ¬ j ≥ 48 := by omega
    have c2 : ¬ j ≥ 32 := by omega
    have c3 : j ≥ 16 := by omega
    simp [e, c1, c2, c3, testBit_high m hm j (by omega)]
  · have e : j % 16 = j - 32 := by omega
    have c1 : ¬ j ≥ 48 := by omega
    have c2 : j ≥ 32 := by omega
    have c3 : j ≥ 16 := by omega
    simp [e, c1, c2, c3, testBit_high m hm j (by omega), testBit_high m hm (j - 16) (by omega)]
  · have e : j % 16 = j - 48 := by omega
    have c1 : j ≥ 48 := by omega
    have c2 : j ≥ 32 := by omega
    have c3 : j ≥ 16 := by omega
    simp [e, c1, c2, c3, testBit_high m hm j (by omega), testBit_high m hm (j - 16) (by omega),
      testBit_high m hm (j - 32) (by omega)]

theorem memory2_moveN (move1 move2 move3 : Nat) :
    (NewPureStrategyWithMemory2 move1 move2 move3).MoveN
      = shl64 move3 48 ||| shl64 move3 32 ||| shl64 move3 16 ||| move3 := rfl

theorem tile64_index :
    ∀ o1 < 4, ∀ o2 < 4, ∀ o3 < 4,
      ((o1 <<< 4) ||| (o2 <<< 2) ||| o3) % 16 = (o2 <<< 2) ||| o3 ∧
        (o1 <<< 4) ||| (o2 <<< 2) ||| o3 < 64 := by
  decide

theorem memory2_intended (move1 move2 move3 : Nat) (h3 : move3 < 2 ^ 16) (o3 o2 o1 : Nat)
    (past : List Nat) (b3 : o3 < 4) (b2 : o2 < 4) (b1 : o1 < 4) :
    intendedMove (NewPureStrategyWithMemory2 move1 move2 move3) (o3 :: o2 :: o1 :: past)
      = bitAt move3 ((o2 <<< 2) ||| o3) := by
  show bitAt (NewPureStrategyWithMemory2 move1 move2 move3).MoveN
    ((o1 <<< 4) ||| (o2 <<< 2) ||| o3) = _
  rw [memory2_moveN, tile64_bit move3 h3 _ (tile64_index o1 b1 o2 b2 o3 b3).2,
    (tile64_index o1 b1 o2 b2 o3 b3).1]

/-- C15: a depth-2 strategy decides from the two most recent outcomes only: for
every `move1`, `move2` and every `uint16` value `move3`, the strategy
`NewPureStrategyWithMemory2 move1 move2 move3` has bit `j` of `MoveN` equal to
bit `j mod 16` of `move3` for `j` in `0..63`; hence in every game with
`1 ≤ Rounds ≤ 32` where it is a player, in every round `r ≥ 4` whose own mistake
bit is clear, its move is bit `(own outcome of round r-2 << 2) | own outcome of
round r-1` of `move3`, whatever the outcome of round `r - 3`. -/
theorem memory2_two_recent_outcomes (move1 move2 move3 : Nat) (h3 : move3 < 2 ^ 16)
    (g : PairGame) (h1 : 1 ≤ g.Rounds) (h32 : g.Rounds ≤ 32) :
    (∀ j < 64,
      bitAt (NewPureStrategyWithMemory2 move1 move2 move3).MoveN j = bitAt move3 (j % 16)) ∧
    ∃ scoreA scoreB history, SimulateMatch g = some (scoreA, scoreB, history) ∧
      (g.A = NewPureStrategyWithMemory2 move1 move2 move3 →
        ∀ r, 4 ≤ r → r ≤ g.Rounds → bitAt g.MistakesA (r - 1) = 0 →
          bitAt (pairAt history g.Rounds r) 1
            = bitAt move3
                ((pairAt history g.Rounds (r - 2) <<< 2) ||| pairAt history g.Rounds (r - 1))) ∧
      (g.B = NewPureStrategyWithMemory2 move1 move2 move3 →
        ∀ r, 4 ≤ r → r ≤ g.Rounds → bitAt g.MistakesB (r - 1) = 0 →
          bitAt (pairAt history g.Rounds r) 0
            = bitAt move3
                ((swapBits (pairAt history g.Rounds (r - 2)) <<< 2)
                  ||| swapBits (pairAt history g.Rounds (r - 1)))) := by
  refine ⟨fun j hj => ?_, _, _, _, SimulateMatch_eq_ref g h1 h32, ?_, ?_⟩
  · rw [memory2_moveN]
    exact tile64_bit move3 h3 j hj
  · intro hA r hr4 hrn hclear
    obtain ⟨j, rfl⟩ : ∃ j, r = j + 4 := ⟨r - 4, by omega⟩
    rw [pairAt_history g _ (j + 4) (by omega) hrn,
      pairAt_history g _ (j + 4 - 2) (by omega) (by omega),
      pairAt_history g _ (j + 4 - 1) (by omega) (by omega),
      show j + 4 - 2 = j + 2 by omega, show j + 4 - 1 = j + 3 by omega,
      moveA_bit g (j + 3), actualMove_clear _ _ _ _ hclear, hA, pastA_three]
    exact memory2_intended move1 move2 move3 h3 _ _ _ _ (outcomeA_lt g _) (outcomeA_lt g _)
      (outcomeA_lt g _)
  · intro hB r hr4 hrn hclear
    obtain ⟨j, rfl⟩ : ∃ j, r = j + 4 := ⟨r - 4, by omega⟩
    rw [pairAt_history g _ (j + 4) (by omega) hrn,
      pairAt_history g _ (j + 4 - 2) (by omega) (by omega),
      pairAt_history g _ (j + 4 - 1) (by omega) (by omega),
      show j + 4 - 2 = j + 2 by omega, show j + 4 - 1 = j + 3 by omega,
      moveB_bit g (j + 3), actualMove_clear _ _ _ _ hclear, hB, pastB_eq, pastA_three]
    exact memory2_intended move1 move2 move3 h3 _ _ _ _ (swapBits_lt _ (outcomeA_lt g _))
      (swapBits_lt _ (outcomeA_lt g _)) (swapBits_lt _ (outcomeA_lt g _))

theorem memory2_two_recent_outcomes_witness :
    ((0b1111101011111010 : Nat) < 2 ^ 16 ∧ 1 ≤ gameTFTWFvsDefeat.Rounds ∧
      gameTFTWFvsDefeat.Rounds ≤ 32) ∧
    (∀ j < 64,
      bitAt (NewPureStrategyWithMemory2 1 0b1111 0b1111101011111010).MoveN j
        = bitAt 0b1111101011111010 (j % 16)) ∧
    ∃ scoreA scoreB history, SimulateMatch gameTFTWFvsDefeat = some (scoreA, scoreB, history) ∧
      (gameTFTWFvsDefeat.A = NewPureStrategyWithMemory2 1 0b1111 0b1111101011111010 →
        ∀ r, 4 ≤ r → r ≤ gameTFTWFvsDefeat.Rounds →
          bitAt gameTFTWFvsDefeat.MistakesA (r - 1) = 0 →
          bitAt (pairAt history gameTFTWFvsDefeat.Rounds r) 1
            = bitAt 0b1111101011111010
                ((pairAt history gameTFTWFvsDefeat.Rounds (r - 2) <<< 2)
                  ||| pairAt history gameTFTWFvsDefeat.Rounds (r - 1))) ∧
      (gameTFTWFvsDefeat.B = NewPureStrategyWithMemory2 1 0b1111 0b1111101011111010 →
        ∀ r, 4 ≤ r → r ≤ gameTFTWFvsDefeat.Rounds →
          bitAt gameTFTWFvsDefeat.MistakesB (r - 1) = 0 →
          bitAt (pairAt history gameTFTWFvsDefeat.Rounds r) 0
            = bitAt 0b1111101011111010
                ((swapBits (pairAt history gameTFTWFvsDefeat.Rounds (r - 2)) <<< 2)
                  ||| swapBits (pairAt history gameTFTWFvsDefeat.Rounds (r - 1)))) :=
  ⟨by decide,
    memory2_two_recent_outcomes 1 0b1111 0b1111101011111010 (by decide) gameTFTWFvsDefeat
      (by decide) (by decide)⟩

/-! ## Always-Defeat against itself -/

theorem refRun_allD (mA mB n k : Nat) :
    refRun
        { A := StrategyAlwaysDefeat, B := StrategyAlwaysDefeat, MistakesA := mA,
          MistakesB := mB, Payoffs := DefaultPayoffs, Rounds := n } k
      = { scoreA := 0, scoreB := 0, history := 0,
          pastA := List.replicate k 0, pastB := List.replicate k 0 } := by
  induction k with
  | zero => rfl
  | succ k ih =>
    have hp : ∀ x ∈ List.replicate k 0, x < 4 := by
      intro x hx
      rw [List.eq_of_mem_replicate hx]
      decide
    have hi : intendedMove StrategyAlwaysDefeat (List.replicate k 0) = 0 :=
      withoutMemory_intended 0 (by decide) _ hp
    have hm : ∀ m, actualMove StrategyAlwaysDefeat m (k + 1) (List.replicate k 0) = 0 := by
      intro m
      unfold actualMove
      rw [hi, Nat.zero_and]
    have hpay : refPayoff
        { A := StrategyAlwaysDefeat, B := StrategyAlwaysDefeat, MistakesA := mA,
          MistakesB := mB, Payoffs := DefaultPayoffs, Rounds := n } 0 = 0 := rfl
    simp only [refRun, refRound]
    simp only [refRun] at ih
    rw [ih]
    simp only [hm, hpay, List.replicate_succ]
    rfl

/-- C17: Always-Defeat against Always-Defeat: for every round count
`1 ≤ n ≤ 32` and every pair of mistake masks, with the default payoffs, both
scores are 0 and the history is 0: every round's outcome is D. -/
theorem always_defeat_vs_always_defeat (n mA mB : Nat) (h1 : 1 ≤ n) (h32 : n ≤ 32) :
    SimulateMatch
        { A := StrategyAlwaysDefeat, B := StrategyAlwaysDefeat, MistakesA := mA,
          MistakesB := mB, Payoffs := DefaultPayoffs, Rounds := n }
      = some ((0 : Int), (0 : Int), 0) ∧
    ∀ r, 1 ≤ r → r ≤ n → pairAt 0 n r = 0 := by
  constructor
  · rw [SimulateMatch_eq_ref _ h1 h32, refSimulate]
    simp only []
    rw [refRun_allD]
  · intro r _ _
    simp [pairAt]

theorem always_defeat_vs_always_defeat_witness :
    (1 ≤ 10 ∧ 10 ≤ 32) ∧
    SimulateMatch
        { A := StrategyAlwaysDefeat, B := StrategyAlwaysDefeat, MistakesA := 1 <<< 5,
          MistakesB := 0, Payoffs := DefaultPayoffs, Rounds := 10 }
      = some ((0 : Int), (0 : Int), 0) ∧
    ∀ r, 1 ≤ r → r ≤ 10 → pairAt 0 10 r = 0 :=
  ⟨by decide, always_defeat_vs_always_defeat 10 (1 <<< 5) 0 (by decide) (by decide)⟩

/-! ## Round counts outside the documented range -/

theorem SimulateMatch_rounds_zero (g : PairGame) :
    SimulateMatch { g with Rounds := 0 } = SimulateMatch { g with Rounds := 3 } := by
  simp [SimulateMatch, loopFrom, payoffAt]

/-- C20: the round count 0 is treated as 3: for every game, `SimulateMatch` with
`Rounds = 0` returns the same scores and history as with `Rounds = 3`, the
result of three played rounds. -/
theorem rounds_zero_plays_three (g : PairGame) :
    ∃ result, SimulateMatch { g with Rounds := 3 } = some result ∧
      SimulateMatch { g with Rounds := 0 } = some result ∧
      result = refSimulate { g with Rounds := 3 } := by
  have h3 := SimulateMatch_eq_ref { g with Rounds := 3 } (show 1 ≤ 3 by decide)
    (show 3 ≤ 32 by decide)
  refine ⟨_, h3, ?_, rfl⟩
  rw [SimulateMatch_rounds_zero]
  exact h3

/-! ## Rendering -/

theorem outcomesStr_get : ∀ p < 4, outcomesStr.get? p = some (outcomeLabel p) := by
  decide

theorem pair_mask_lt (x : Nat) : x &&& (1 <<< 2 - 1) < 4 :=
  Nat.lt_succ_of_le Nat.and_le_right

theorem historyLoop_eq (history rounds : Nat) :
    ∀ fuel r results, 1 ≤ r → r ≤ rounds + 1 → rounds + 1 - r < fuel →
      historyLoop history rounds fuel r results
        = some (results ++ (List.range' r (rounds + 1 - r)).map
            fun q => outcomeLabel (pairAt history rounds q)) := by
  intro fuel
  induction fuel with
  | zero => intro r _ _ _ hf; omega
  | succ fuel ih =>
    intro r results h1 hr hf
    unfold historyLoop
    by_cases hle : r ≤ rounds
    · rw [if_pos hle]
      simp only []
      rw [outcomesStr_get _ (pair_mask_lt _), Option.some_bind,
        ih (r + 1) _ (by omega) (by omega) (by omega)]
      have e : rounds + 1 - r = (rounds + 1 - (r + 1)) + 1 := by omega
      rw [e, List.range'_succ, List.map_cons, List.append_assoc]
      rfl
    · rw [if_neg hle]
      have e : rounds + 1 - r = 0 := by omega
      rw [e]
      simp

/-- C18: `HistoryToString` renders the packed history in round order: for every
history and every round count `n` (in particular a `uint64` history and
`1 ≤ n ≤ 32`) the result is `n` labels joined by `" -> "`, the `r`-th label being
the label of the pair `(history >> 2*(n-r)) & 3` under `0 → "D"`, `1 → "D/C"`,
`2 → "C/D"`, `3 → "C"`: round 1, the most significant used pair, comes first. -/
theorem historyToString_renders (history n : Nat) :
    ∃ labels : List String,
      HistoryToString history n = some (String.intercalate " -> " labels) ∧
      labels.length = n ∧
      ∀ r, 1 ≤ r → r ≤ n →
        labels[r - 1]? = some (outcomeLabel (pairAt history n r)) := by
  refine ⟨(List.range' 1 n).map fun q => outcomeLabel (pairAt history n q), ?_, ?_, ?_⟩
  · unfold HistoryToString
    rw [historyLoop_eq history n (n + 1) 1 [] (le_refl _) (by omega) (by omega)]
    simp
  · simp
  · intro r hr1 hrn
    rw [List.getElem?_map, List.getElem?_range' _ _ (by omega)]
    simp only [Option.map_some', Nat.one_mul]
    rw [show 1 + (r - 1) = r by omega]

/-! ## Pavlov against Always-Defeat -/

set_option maxRecDepth 100000 in
theorem pavlov_vs_defeat_runs :
    ∀ n < 33, 1 ≤ n →
      SimulateMatch
          { A := StrategyPavlov, B := StrategyAlwaysDefeat, MistakesA := 0, MistakesB := 0,
            Payoffs := DefaultPayoffs, Rounds := n }
        = some (-(((n + 1) / 2 : Nat) : Int), 3 * (((n + 1) / 2 : Nat) : Int),
            0x8888888888888888 >>> (64 - 2 * n)) := by
  decide

set_option maxRecDepth 100000 in
theorem alternating_pairs :
    ∀ n < 33, ∀ r < 33, 1 ≤ r → r ≤ n →
      pairAt (0x8888888888888888 >>> (64 - 2 * n)) n r = if r % 2 = 1 then 2 else 0 := by
  decide

/-- C16: Pavlov against Always-Defeat alternates: for every `1 ≤ n ≤ 32`, without
mistakes and with the default payoffs, the outcome of round `r` is C/D (2) for
odd `r` and D (0) for even `r`, the score of `A` is `-⌈n/2⌉` and the score of `B`
is `3 * ⌈n/2⌉`; for `n = 10` the scores are -5 and 15 and the rendered history is
"C/D -> D" five times. -/
theorem pavlov_vs_always_defeat_alternates (n : Nat) (h1 : 1 ≤ n) (h32 : n ≤ 32) :
    (∃ history,
      SimulateMatch
          { A := StrategyPavlov, B := StrategyAlwaysDefeat, MistakesA := 0, MistakesB := 0,
            Payoffs := DefaultPayoffs, Rounds := n }
        = some (-(((n + 1) / 2 : Nat) : Int), 3 * (((n + 1) / 2 : Nat) : Int), history) ∧
      ∀ r, 1 ≤ r → r ≤ n → pairAt history n r = if r % 2 = 1 then 2 else 0) ∧
    ∃ history,
      SimulateMatch
          { A := StrategyPavlov, B := StrategyAlwaysDefeat, MistakesA := 0, MistakesB := 0,
            Payoffs := DefaultPayoffs, Rounds := 10 }
        = some ((-5 : Int), (15 : Int), history) ∧
      HistoryToString history 10
        = some "C/D -> D -> C/D -> D -> C/D -> D -> C/D -> D -> C/D -> D" := by
  refine ⟨⟨_, pavlov_vs_defeat_runs n (by omega) h1, ?_⟩, 0x88888, by decide, by decide⟩
  intro r hr1 hrn
  exact alternating_pairs n (by omega) r (by omega) hr1 hrn

theorem pavlov_vs_always_defeat_alternates_witness :
    (1 ≤ 7 ∧ 7 ≤ 32) ∧
    (∃ history,
      SimulateMatch
          { A := StrategyPavlov, B := StrategyAlwaysDefeat, MistakesA := 0, MistakesB := 0,
            Payoffs := DefaultPayoffs, Rounds := 7 }
        = some (-(((7 + 1) / 2 : Nat) : Int), 3 * (((7 + 1) / 2 : Nat) : Int), history) ∧
      ∀ r, 1 ≤ r → r ≤ 7 → pairAt history 7 r = if r % 2 = 1 then 2 else 0) ∧
    ∃ history,
      SimulateMatch
          { A := StrategyPavlov, B := StrategyAlwaysDefeat, MistakesA := 0, MistakesB := 0,
            Payoffs := DefaultPayoffs, Rounds := 10 }
        = some ((-5 : Int), (15 : Int), history) ∧
      HistoryToString history 10
        = some "C/D -> D -> C/D -> D -> C/D -> D -> C/D -> D -> C/D -> D" :=
  ⟨by decide, pavlov_vs_always_defeat_alternates 7 (by decide) (by decide)⟩

/-! ## Range conditions -/

theorem and_u8_bit_lt (x y : Nat) : x &&& u8 (y &&& 1) < 2 := by
  rw [u8_and_one]
  exact Nat.lt_succ_of_le (le_trans Nat.and_le_right Nat.and_le_right)

theorem shl8_or_lt4 (a b : Nat) (ha : a < 2) (hb : b < 2) : shl8 a 1 ||| b < 4 := by
  interval_cases a <;> interval_cases b <;> decide

theorem shl8_or_lt16 (a b : Nat) (ha : a < 4) (hb : b < 4) : shl8 a 2 ||| b < 16 := by
  interval_cases a <;> interval_cases b <;> decide

theorem mask6_lt (x : Nat) : x &&& (1 <<< 6 - 1) < 64 :=
  Nat.lt_succ_of_le Nat.and_le_right

theorem moveChecked_masked (x y : Nat) :
    moveChecked (x &&& u8 (y &&& 1)) = some (x &&& u8 (y &&& 1)) := by
  unfold moveChecked
  rw [if_pos (and_u8_bit_lt x y)]

theorem outcomeChecked_masked (x y z w : Nat) :
    outcomeChecked (x &&& u8 (y &&& 1)) (z &&& u8 (w &&& 1))
      = some (shl8 (x &&& u8 (y &&& 1)) 1 ||| (z &&& u8 (w &&& 1))) := by
  unfold outcomeChecked
  rw [if_pos (shl8_or_lt4 _ _ (and_u8_bit_lt x y) (and_u8_bit_lt z w))]

theorem lookupChecked_outcome (t x y z w : Nat) :
    lookupChecked 4 t (shl8 (x &&& u8 (y &&& 1)) 1 ||| (z &&& u8 (w &&& 1)))
      = some (t >>> (shl8 (x &&& u8 (y &&& 1)) 1 ||| (z &&& u8 (w &&& 1)))) := by
  unfold lookupChecked
  rw [if_pos (shl8_or_lt4 _ _ (and_u8_bit_lt x y) (and_u8_bit_lt z w))]

theorem lookupChecked_two (t x y z w a b c d : Nat) :
    lookupChecked 16 t
        (shl8 (shl8 (x &&& u8 (y &&& 1)) 1 ||| (z &&& u8 (w &&& 1))) 2
          ||| (shl8 (a &&& u8 (b &&& 1)) 1 ||| (c &&& u8 (d &&& 1))))
      = some (t >>>
        (shl8 (shl8 (x &&& u8 (y &&& 1)) 1 ||| (z &&& u8 (w &&& 1))) 2
          ||| (shl8 (a &&& u8 (b &&& 1)) 1 ||| (c &&& u8 (d &&& 1))))) := by
  unfold lookupChecked
  rw [if_pos (shl8_or_lt16 _ _ (shl8_or_lt4 _ _ (and_u8_bit_lt x y) (and_u8_bit_lt z w))
    (shl8_or_lt4 _ _ (and_u8_bit_lt a b) (and_u8_bit_lt c d)))]

theorem lookupChecked_window (t x : Nat) :
    lookupChecked 64 t (x &&& (1 <<< 6 - 1)) = some (t >>> (x &&& (1 <<< 6 - 1))) := by
  unfold lookupChecked
  rw [if_pos (mask6_lt x)]

theorem loopBodyChecked_eq (g : PairGame) (v : LoopVars) :
    loopBodyChecked g v = loopBody g v := by
  simp only [loopBodyChecked, loopBody, lookupChecked_window, moveChecked_masked,
    outcomeChecked_masked, Option.bind_eq_bind, Option.some_bind]

theorem loopFromChecked_eq (g : PairGame) :
    ∀ fuel r v, loopFromChecked g fuel r v = loopFrom g fuel r v := by
  intro fuel
  induction fuel with
  | zero => intro r v; rfl
  | succ fuel ih =>
    intro r v
    unfold loopFromChecked loopFrom
    rw [loopBodyChecked_eq]
    congr 1
    congr 1
    funext w
    exact ih _ w

theorem SimulateMatchChecked_eq (g : PairGame) : SimulateMatchChecked g = SimulateMatch g := by
  have hl : loopFromChecked g 256 4 = loopFrom g 256 4 := by
    funext v
    exact loopFromChecked_eq g 256 4 v
  unfold SimulateMatchChecked
  simp only [moveChecked_masked, outcomeChecked_masked, Option.bind_eq_bind, Option.some_bind]
  simp only [roundsFrom2Checked, lookupChecked_outcome, moveChecked_masked,
    outcomeChecked_masked, Option.bind_eq_bind, Option.some_bind]
  simp only [roundsFrom3Checked, lookupChecked_two, moveChecked_masked,
    outcomeChecked_masked, Option.bind_eq_bind, Option.some_bind, hl]
  unfold SimulateMatch
  rfl

/-- C19: `SimulateMatch` has no failing input in the documented range: for
every game with `1 ≤ Rounds ≤ 32` and arbitrary values in all other fields, the
simulator returns a result, and the simulator with every range condition
checked (every move is 0 or 1, every outcome is in `0..3`, every table shift
amount is below the width of the table: 4 for `Move2`, 16 for `Move3`, 64 for
`MoveN`) returns the same result: no check fails and no index into `Payoffs` is
out of range. -/
theorem simulateMatch_never_fails (g : PairGame) (h1 : 1 ≤ g.Rounds) (h32 : g.Rounds ≤ 32) :
    ∃ result, SimulateMatch g = some result ∧ SimulateMatchChecked g = some result := by
  refine ⟨_, SimulateMatch_eq_ref g h1 h32, ?_⟩
  rw [SimulateMatchChecked_eq]
  exact SimulateMatch_eq_ref g h1 h32

theorem simulateMatch_never_fails_witness :
    (1 ≤ gameWideFields.Rounds ∧ gameWideFields.Rounds ≤ 32) ∧
      ∃ result, SimulateMatch gameWideFields = some result ∧
        SimulateMatchChecked gameWideFields = some result :=
  ⟨by decide, simulateMatch_never_fails gameWideFields (by decide) (by decide)⟩


/-! ## Width of the packed history -/

theorem bitAt_high (x k i : Nat) (hx : x < 2 ^ k) (hi : k ≤ i) : bitAt x i = 0 := by
  rw [bitAt_eq_mod, Nat.div_eq_of_lt (lt_of_lt_of_le hx (Nat.pow_le_pow_right (by decide) hi))]

theorem pairAt_succ (x n r : Nat) (hr : r ≤ n) :
    pairAt x (n + 1) r = pairAt (x >>> 2) n r := by
  unfold pairAt
  rw [show 2 * (n + 1 - r) = 2 + 2 * (n - r) by omega, Nat.shiftRight_add]

theorem pairAt_last (x n : Nat) : pairAt x (n + 1) (n + 1) = x % 4 := by
  unfold pairAt
  rw [Nat.sub_self, Nat.mul_zero, Nat.shiftRight_zero, show (3 : Nat) = 2 ^ 2 - 1 by rfl,
    Nat.and_pow_two_sub_one_eq_mod]

theorem pairs_determine (n : Nat) :
    ∀ x y, x < 4 ^ n → y < 4 ^ n →
      (∀ r, 1 ≤ r → r ≤ n → pairAt x n r = pairAt y n r) → x = y := by
  induction n with
  | zero =>
    intro x y hx hy _
    simp at hx hy
    omega
  | succ n ih =>
    intro x y hx hy h
    have hlow : x % 4 = y % 4 := by
      rw [← pairAt_last x n, ← pairAt_last y n]
      exact h (n + 1) (by omega) (le_refl _)
    have hhigh : x >>> 2 = y >>> 2 := by
      apply ih
      · rw [Nat.shiftRight_eq_div_pow]
        rw [pow_succ] at hx
        omega
      · rw [Nat.shiftRight_eq_div_pow]
        rw [pow_succ] at hy
        omega
      · intro r hr1 hrn
        rw [← pairAt_succ x n r hrn, ← pairAt_succ y n r hrn]
        exact h r hr1 (by omega)
    rw [Nat.shiftRight_eq_div_pow, Nat.shiftRight_eq_div_pow] at hhigh
    omega

/-- C21: the packed history uses exactly `2 * Rounds` bits: for every game with
`1 ≤ n = Rounds ≤ 32` the returned history is below `4 ^ n` and below `2 ^ 64`,
all its bits at positions `≥ 2 * n` are zero, its `r`-th pair is the outcome of
round `r`, for `n = 32` the round-1 outcome is `history >> 62`, and a history
below `4 ^ n` is determined by its `n` pairs: the per-round outcomes are
recovered from the history and `n` without loss. -/
theorem history_uses_two_bits_per_round (g : PairGame) (h1 : 1 ≤ g.Rounds)
    (h32 : g.Rounds ≤ 32) :
    ∃ scoreA scoreB history, SimulateMatch g = some (scoreA, scoreB, history) ∧
      history < 4 ^ g.Rounds ∧ history < 2 ^ 64 ∧
      (∀ i, 2 * g.Rounds ≤ i → bitAt history i = 0) ∧
      (∀ r, 1 ≤ r → r ≤ g.Rounds → pairAt history g.Rounds r = outcomeA g r) ∧
      (g.Rounds = 32 → history >>> 62 = outcomeA g 1) ∧
      ∀ other, other < 4 ^ g.Rounds →
        (∀ r, 1 ≤ r → r ≤ g.Rounds → pairAt other g.Rounds r = pairAt history g.Rounds r) →
        other = history := by
  have hs := (refRun_inv g g.Rounds).small
  have hpow : (4 : Nat) ^ g.Rounds ≤ 4 ^ 32 := Nat.pow_le_pow_right (by decide) h32
  have e : (4 : Nat) ^ 32 = 2 ^ 64 := by norm_num
  have e2 : (4 : Nat) ^ g.Rounds = 2 ^ (2 * g.Rounds) := by
    rw [pow_mul]
    rfl
  refine ⟨_, _, _, SimulateMatch_eq_ref g h1 h32, hs, by omega, ?_, ?_, ?_, ?_⟩
  · intro i hi
    exact bitAt_high _ (2 * g.Rounds) i (by rw [← e2]; exact hs) hi
  · intro r hr1 hrn
    exact pairAt_history g g.Rounds r hr1 hrn
  · intro hn
    have hp := pairAt_history g g.Rounds 1 (le_refl _) h1
    rw [hn] at hp hs
    show (refRun g g.Rounds).history >>> 62 = outcomeA g 1
    rw [hn, ← hp]
    unfold pairAt
    have hlt : (refRun g 32).history >>> 62 < 4 := by
      rw [Nat.shiftRight_eq_div_pow]
      omega
    rw [show 2 * (32 - 1) = 62 by rfl, show (3 : Nat) = 2 ^ 2 - 1 by rfl,
      Nat.and_pow_two_sub_one_eq_mod, Nat.mod_eq_of_lt hlt]
  · intro other ho hpairs
    exact pairs_determine g.Rounds other _ ho hs hpairs

theorem history_uses_two_bits_per_round_witness :
    (1 ≤ gameWideFields.Rounds ∧ gameWideFields.Rounds ≤ 32) ∧
    ∃ scoreA scoreB history,
      SimulateMatch gameWideFields = some (scoreA, scoreB, history) ∧
      history < 4 ^ gameWideFields.Rounds ∧ history < 2 ^ 64 ∧
      (∀ i, 2 * gameWideFields.Rounds ≤ i → bitAt history i = 0) ∧
      (∀ r, 1 ≤ r → r ≤ gameWideFields.Rounds →
        pairAt history gameWideFields.Rounds r = outcomeA gameWideFields r) ∧
      (gameWideFields.Rounds = 32 → history >>> 62 = outcomeA gameWideFields 1) ∧
      ∀ other, other < 4 ^ gameWideFields.Rounds →
        (∀ r, 1 ≤ r → r ≤ gameWideFields.Rounds →
          pairAt other gameWideFields.Rounds r = pairAt history gameWideFields.Rounds r) →
        other = history :=
  ⟨by decide, history_uses_two_bits_per_round gameWideFields (by decide) (by decide)⟩

end Pavlov
